import Mathlib

/-!
Verification of the job-orchestration core of the translate-api-and-ui
repository (a Flask application driving Azure document translation).

The Python sources are shallowly embedded:
* Python strings that undergo character-level processing (container names,
  language codes) are modelled as lists of Unicode codepoints (`PyStr`);
  `str.lower` and `str.isalnum` are modelled faithfully on the ASCII range
  and on the codepoints 209 (`Ñ`) and 241 (`ñ`), which exhibit Python's
  Unicode behaviour (`'Ñ'.lower() = 'ñ'`, both alphanumeric, verified
  against CPython).  The remaining non-ASCII codepoints are outside the
  model (left unlowered and treated as non-alphanumeric), so every
  universally quantified statement about the sanitizer either carries an
  all-ASCII hypothesis or is witnessed inside the modelled fragment.
  Python's full case mapping is not expressible character by character:
  lowering is context-sensitive (a final capital sigma lowers to a
  different letter than a medial one) and can expand one character to two
  (U+0130), so claims that genuinely range over all Unicode strings are
  reported as unresolved rather than proved against a thinned model.
* Python strings that are only compared, appended or stored (job ids,
  messages, paths) are modelled as Lean `String`.
* The mutable `JobStatus` object is modelled as an immutable record together
  with an explicit `update` function; `datetime.now()` becomes an explicit
  timestamp argument.
* Each background runner is modelled as the finite sequence of `update`
  calls it performs, indexed by an outcome value describing where the remote
  work succeeded, returned nothing, or raised.
-/

namespace TranslateApp

/-- Python strings at codepoint level: a list of Unicode codepoints.
(45 is the hyphen, 95 the underscore, 99 the letter c.) -/
abbrev PyStr := List Nat

/-- Codepoints of a Lean string literal, used to write concrete Python
string values. -/
def strCodes (s : String) : PyStr := s.toList.map Char.toNat

/-- ASCII uppercase letter test (codepoints 65..90). -/
def isUpperCode (n : Nat) : Bool := 65 ≤ n && n ≤ 90

/-- ASCII lowercase letter test (codepoints 97..122). -/
def isLowerCode (n : Nat) : Bool := 97 ≤ n && n ≤ 122

/-- ASCII digit test (codepoints 48..57). -/
def isDigitCode (n : Nat) : Bool := 48 ≤ n && n ≤ 57

/-- Python `str.isalnum` on one character: faithful on ASCII and on the
codepoints 209 (`Ñ`) and 241 (`ñ`), both alphanumeric in Python; other
non-ASCII codepoints are outside the model and treated as
non-alphanumeric. -/
def pyIsAlnum (n : Nat) : Bool :=
  isUpperCode n || isLowerCode n || isDigitCode n || n == 209 || n == 241

/-- Python `str.lower` on one character: faithful on ASCII and on the
codepoint 209 (`'Ñ'.lower() = 'ñ'`, that is 209 to 241); other non-ASCII
codepoints are outside the model and left unchanged. -/
def pyLowerChar (n : Nat) : Nat :=
  if isUpperCode n then n + 32 else if n == 209 then 241 else n

/-- Python `s.lower()` on a whole string. -/
def pyLower (s : PyStr) : PyStr := s.map pyLowerChar

/-- The character is in the ASCII range, where the model of `str.lower`
and `str.isalnum` is exact. -/
def isAscii (n : Nat) : Bool := n ≤ 127

/-- Python `name.lower().replace('_', '-')`, the first transformation of
`sanitize_container_name` (app.py line 98), applied per character. -/
def lowerReplace (s : PyStr) : PyStr :=
  s.map (fun n => if pyLowerChar n == 95 then 45 else pyLowerChar n)

/-- The character filter of app.py line 100:
`c.isalnum() or c == '-'`. -/
def keepChar (n : Nat) : Bool := pyIsAlnum n || n == 45

/-- One pass of Python `s.replace('--', '-')`: replace non-overlapping
occurrences of two hyphens by one, scanning left to right. -/
def replaceOnce : PyStr → PyStr
  | [] => []
  | [a] => [a]
  | a :: b :: rest =>
    if a == 45 && b == 45 then 45 :: replaceOnce rest
    else a :: replaceOnce (b :: rest)

/-- Python `'--' in s`. -/
def hasDoubleDash : PyStr → Bool
  | [] => false
  | [_] => false
  | a :: b :: rest => (a == 45 && b == 45) || hasDoubleDash (b :: rest)

/-- The `while '--' in sanitized:` loop of app.py lines 102-103, with an
explicit fuel argument so the recursion is structural.  Each pass of the
loop strictly shrinks the string, so fuel equal to the string's length is
always enough (`hasDoubleDash_collapseAux` below). -/
def collapseAux : Nat → PyStr → PyStr
  | 0, s => s
  | fuel + 1, s => if hasDoubleDash s then collapseAux fuel (replaceOnce s) else s

/-- The `while '--' in sanitized:` loop of app.py lines 102-103. -/
def collapseDashes (s : PyStr) : PyStr := collapseAux s.length s

/-- Python `s.lstrip('-')`. -/
def lstripDash (s : PyStr) : PyStr := s.dropWhile (fun n => n == 45)

/-- Python `s.rstrip('-')`. -/
def rstripDash (s : PyStr) : PyStr := (s.reverse.dropWhile (fun n => n == 45)).reverse

/-- Python `s.strip('-')` (app.py line 105). -/
def stripDash (s : PyStr) : PyStr := rstripDash (lstripDash s)

/-- app.py lines 107-108: prefix a `c` when the string is non-empty and its
first character is not alphanumeric. -/
def ensureStart (s : PyStr) : PyStr :=
  match s with
  | [] => []
  | c :: rest => if pyIsAlnum c then c :: rest else 99 :: c :: rest

/-- app.py lines 110-111: truncate to 63 characters, trimming the hyphens
this may leave at the end. -/
def truncate63 (s : PyStr) : PyStr :=
  if s.length > 63 then rstripDash (s.take 63) else s

/-- app.py lines 113-114: pad with `xyz` (codepoints 120, 121, 122) when
shorter than 3 characters. -/
def padMin3 (s : PyStr) : PyStr :=
  if s.length < 3 then s ++ [120, 121, 122] else s

/-- The function `sanitize_container_name` (app.py lines 88-115). -/
def sanitize_container_name (s : PyStr) : PyStr :=
  padMin3 (truncate63 (ensureStart (stripDash (collapseDashes
    ((lowerReplace s).filter keepChar)))))

/-- First or last character of a container name must be a lowercase letter
or a digit. -/
def isAlnumLower (n : Nat) : Bool := isLowerCode n || isDigitCode n

/-- The string is non-empty and begins with a lowercase letter or digit. -/
def headAlnum (s : PyStr) : Bool :=
  match s.head? with | some c => isAlnumLower c | none => false

/-- The string is non-empty and ends with a lowercase letter or digit. -/
def lastAlnum (s : PyStr) : Bool :=
  match s.getLast? with | some c => isAlnumLower c | none => false

/-- The ContainerName invariant of the specification: length 3-63, only
lowercase letters, digits and hyphens, alphanumeric first and last
character, no `--` substring. -/
def validContainerName (s : PyStr) : Bool :=
  decide (3 ≤ s.length) && decide (s.length ≤ 63) &&
  s.all (fun n => isAlnumLower n || n == 45) &&
  headAlnum s && lastAlnum s && !hasDoubleDash s

/-- Every character is a lowercase letter, a digit, or a hyphen. -/
def goodChars (s : PyStr) : Bool := s.all (fun n => isAlnumLower n || n == 45)

/-- The first character, when there is one, is not a hyphen. -/
def headNotDash (s : PyStr) : Bool :=
  match s.head? with | some c => !(c == 45) | none => true

/-- The last character, when there is one, is not a hyphen. -/
def lastNotDash (s : PyStr) : Bool :=
  match s.getLast? with | some c => !(c == 45) | none => true

/-- All the structural facts that hold halfway through
`sanitize_container_name`, after `strip('-')`. -/
def tidy (s : PyStr) : Bool :=
  goodChars s && !hasDoubleDash s && headNotDash s && lastNotDash s

/-! ### Strings on which the sanitizer acts as plain hyphenization

The container names the application builds have the shape
`batch-source-{job_id}` where `job_id` is `{job_type}_{timestamp}`.  On such
strings — lowercase alphanumerics, hyphens and underscores, with no two
adjacent separators, alphanumeric at both ends and length 3-63 —
`sanitize_container_name` does nothing but replace underscores by hyphens.
-/

/-- A separator character: hyphen or underscore. -/
def dashy (n : Nat) : Bool := n == 45 || n == 95

/-- No two adjacent separator characters. -/
def noTwoDashy : PyStr → Bool
  | [] => true
  | [_] => true
  | a :: b :: rest => !(dashy a && dashy b) && noTwoDashy (b :: rest)

/-- Replace underscores by hyphens, one character. -/
def hyphChar (n : Nat) : Nat := if n == 95 then 45 else n

/-- Replace underscores by hyphens (Python `s.replace('_', '-')` on a
string that is already lowercase). -/
def hyphenize (s : PyStr) : PyStr := s.map hyphChar

/-- Characters allowed in a tame string. -/
def tameChar (n : Nat) : Bool := isAlnumLower n || n == 45 || n == 95

/-- Strings the sanitizer merely hyphenizes. -/
def tame (s : PyStr) : Bool :=
  s.all tameChar && noTwoDashy s && headAlnum s && lastAlnum s &&
  decide (3 ≤ s.length) && decide (s.length ≤ 63)

/-! ### The job registry and status tracker -/

/-- A snapshot of the mutable `JobStatus` object (app.py lines 123-163).
The `result` payload is modelled as a flat key/value list standing for the
JSON object stored in the Python attribute. -/
structure JobRecord where
  job_id : String
  job_type : String
  status : String
  progress : Nat
  message : String
  result : Option (List (String × String))
  error : Option String
  started_at : String
  completed_at : Option String
deriving Repr, DecidableEq

/-- Python `JobStatus.__init__` (app.py lines 125-134): a fresh record is pending
at progress 0 with no result, error or completion time. -/
def JobRecord.init (job_id job_type now : String) : JobRecord :=
  { job_id := job_id, job_type := job_type, status := ("pending"),
    progress := 0, message := ("Job queued"), result := none, error := none,
    started_at := now, completed_at := none }

/-- Python truthiness of an optional string argument (`if status:` treats
both `None` and the empty string as false). -/
def truthyStr (o : Option String) : Bool :=
  match o with | some s => !(s == "") | none => false

/-- Python truthiness of an optional dict argument (`if result:` treats
both `None` and an empty dict as false). -/
def truthyDict (o : Option (List (String × String))) : Bool :=
  match o with | some d => !d.isEmpty | none => false

/-- Python `JobStatus.update` (app.py lines 136-149).  The Python method assigns
each field behind its own guard; the guards touch disjoint fields, so the
sequence of assignments is written as a single record construction.  Note
that `completed_at` is assigned whenever the `status` argument is terminal,
with no check of the previous value. -/
def JobRecord.update (j : JobRecord) (status : Option String)
    (progress : Option Nat) (message : Option String)
    (result : Option (List (String × String))) (error : Option String)
    (now : String) : JobRecord :=
  { job_id := j.job_id,
    job_type := j.job_type,
    status := if truthyStr status then status.getD j.status else j.status,
    progress := match progress with | some p => p | none => j.progress,
    message := if truthyStr message then message.getD j.message
      else j.message,
    result := if truthyDict result then result else j.result,
    error := if truthyStr error then error else j.error,
    started_at := j.started_at,
    completed_at :=
      if status == some ("completed") || status == some ("failed")
      then some now else j.completed_at }

/-- The `except` handler at the boundary of the single-translation worker
thread (app.py lines 221-223): the record is marked failed and the
exception's message is stored. -/
def onWorkerException (j : JobRecord) (msg now : String) : JobRecord :=
  j.update (some ("failed")) none (some (("Error: ") ++ msg)) none (some msg)
    now

/-! ### The dispatcher (`/api/translate`) -/

/-- The module-level `jobs` dict (app.py line 85), as an association list
in which the most recent binding for a key shadows older ones (Python dict
lookup semantics for the operations the application performs). -/
abbrev Registry := List (String × JobRecord)

/-- Python dict assignment `jobs[job_id] = job`. -/
def dictSet (reg : Registry) (k : String) (v : JobRecord) : Registry :=
  (k, v) :: reg

/-- Python dict lookup `jobs.get(job_id)`. -/
def dictGet (reg : Registry) (k : String) : Option JobRecord :=
  reg.lookup k

/-- The HTTP response of `start_translation`. -/
inductive Response where
  | ok (job_id : String) (snapshot : JobRecord)
  | err (code : Nat) (msg : String)
deriving Repr, DecidableEq

/-- Which background worker thread `start_translation` starts, with the
arguments it passes. -/
inductive WorkerLaunch where
  | noLaunch
  | single (path target : String) (src : Option String)
  | batch (paths : List String) (targets : List String) (src : Option String)
  | ocr (path target : String) (src : Option String)
deriving Repr, DecidableEq

/-- The route handler `start_translation` (app.py lines 410-480).  Here `files` is the list of the
uploaded files' `filepath` fields (the only field the dispatcher reads);
`timestamp` stands for `datetime.now().strftime('%Y%m%d_%H%M%S')` and `now`
for the iso timestamp stored in the fresh record.  The function returns the
HTTP response, the registry after the call, and the worker launched.
Mirroring the source, the job record is created and inserted into `jobs`
(lines 430-433) before any variant-specific validation runs. -/
def start_translation (job_type : String) (files : List String)
    (target_languages : List String) (source_language : Option String)
    (timestamp now : String) (jobs : Registry) :
    Response × Registry × WorkerLaunch :=
  if files.isEmpty || target_languages.isEmpty then
    (.err 400 ("Files and target languages are required"), jobs, .noLaunch)
  else
    let job_id := job_type ++ ("_") ++ timestamp
    let job := JobRecord.init job_id job_type now
    let jobs1 := dictSet jobs job_id job
    if job_type == ("single") then
      match files, target_languages with
      | [f], [t] => (.ok job_id job, jobs1, .single f t source_language)
      | _, _ =>
        (.err 400
          ("Single translation requires exactly one file and one language"),
          jobs1, .noLaunch)
    else if job_type == ("batch") then
      if target_languages.length == 0 then
        (.err 400 ("Batch translation requires at least one target language"),
          jobs1, .noLaunch)
      else
        (.ok job_id job, jobs1,
          .batch files target_languages source_language)
    else if job_type == ("ocr") then
      match files, target_languages with
      | [f], [t] => (.ok job_id job, jobs1, .ocr f t source_language)
      | _, _ =>
        (.err 400
          ("OCR translation requires exactly one file and one language"),
          jobs1, .noLaunch)
    else
      (.err 400 ("Invalid job type"), jobs1, .noLaunch)

/-! ### The background runners as sequences of `update` calls

Each runner (`run_single_translation`, `run_batch_translation`,
`run_ocr_translation`, app.py lines 166-361) is a straight-line sequence of
`job.update(...)` calls interleaved with remote work.  The remote work can
succeed, return nothing, or raise; an outcome value records where the
straight line was left, and the corresponding list of update calls is read
off the source.  The registry's observable history of the record is the
initial record followed by the state after each call; any polling sequence
is a subsequence of it. -/

/-- The argument bundle of one `job.update(...)` call. -/
structure UpdateCall where
  status : Option String
  progress : Option Nat
  message : Option String
  result : Option (List (String × String))
  error : Option String
deriving Repr, DecidableEq

/-- Perform one recorded call. -/
def applyCall (j : JobRecord) (u : UpdateCall) (now : String) : JobRecord :=
  j.update u.status u.progress u.message u.result u.error now

/-- Where `run_single_translation` (app.py lines 166-223) leaves its
straight-line path. -/
inductive SingleOutcome where
  | initRaises (msg : String)
  | translateRaises (msg : String)
  | translateReturnsNone
  | downloadRaises (msg : String)
  | success (outputFile detectedLang : String)

/-- The `update` calls of `run_single_translation`, per outcome, read off
app.py lines 174, 178, 187, 206-216, 219 and 223. -/
def runSingleCalls (targetLang : String) : SingleOutcome → List UpdateCall
  | .initRaises msg =>
    [⟨some ("running"), some 10, some ("Initializing translator..."), none,
      none⟩,
     ⟨some ("failed"), none, some (("Error: ") ++ msg), none, some msg⟩]
  | .translateRaises msg =>
    [⟨some ("running"), some 10, some ("Initializing translator..."), none,
      none⟩,
     ⟨none, some 30, some ("Uploading document to Azure..."), none, none⟩,
     ⟨some ("failed"), none, some (("Error: ") ++ msg), none, some msg⟩]
  | .translateReturnsNone =>
    [⟨some ("running"), some 10, some ("Initializing translator..."), none,
      none⟩,
     ⟨none, some 30, some ("Uploading document to Azure..."), none, none⟩,
     ⟨some ("failed"), none, some ("Translation failed"), none,
      some ("No translated URL returned")⟩]
  | .downloadRaises msg =>
    [⟨some ("running"), some 10, some ("Initializing translator..."), none,
      none⟩,
     ⟨none, some 30, some ("Uploading document to Azure..."), none, none⟩,
     ⟨none, some 80, some ("Downloading translated document..."), none,
      none⟩,
     ⟨some ("failed"), none, some (("Error: ") ++ msg), none, some msg⟩]
  | .success outputFile detectedLang =>
    [⟨some ("running"), some 10, some ("Initializing translator..."), none,
      none⟩,
     ⟨none, some 30, some ("Uploading document to Azure..."), none, none⟩,
     ⟨none, some 80, some ("Downloading translated document..."), none,
      none⟩,
     ⟨some ("completed"), some 100,
      some ("Translation completed successfully"),
      some [(("output_file"), outputFile),
            (("download_url"), ("/download/") ++ outputFile),
            (("detected_source_language"), detectedLang),
            (("target_language"), targetLang)], none⟩]

/-- Where `run_batch_translation` (app.py lines 226-308) leaves its
straight-line path. -/
inductive BatchOutcome where
  | initRaises (msg : String)
  | prepareRaises (msg : String)
  | translateRaises (msg : String)
  | downloadRaises (msg : String)
  | success (resultPayload : List (String × String))

/-- The `update` calls of `run_batch_translation`, per outcome, read off
app.py lines 235, 244, 249, 279, 295-305 and 308. -/
def runBatchCalls (targetCount : Nat) : BatchOutcome → List UpdateCall
  | .initRaises msg =>
    [⟨some ("running"), some 10, some ("Initializing batch translator..."),
      none, none⟩,
     ⟨some ("failed"), none, some (("Error: ") ++ msg), none, some msg⟩]
  | .prepareRaises msg =>
    [⟨some ("running"), some 10, some ("Initializing batch translator..."),
      none, none⟩,
     ⟨none, some 20, some ("Preparing batch files..."), none, none⟩,
     ⟨some ("failed"), none, some (("Error: ") ++ msg), none, some msg⟩]
  | .translateRaises msg =>
    [⟨some ("running"), some 10, some ("Initializing batch translator..."),
      none, none⟩,
     ⟨none, some 20, some ("Preparing batch files..."), none, none⟩,
     ⟨none, some 40, some (("Translating to ") ++ toString targetCount ++
       (" languages...")), none, none⟩,
     ⟨some ("failed"), none, some (("Error: ") ++ msg), none, some msg⟩]
  | .downloadRaises msg =>
    [⟨some ("running"), some 10, some ("Initializing batch translator..."),
      none, none⟩,
     ⟨none, some 20, some ("Preparing batch files..."), none, none⟩,
     ⟨none, some 40, some (("Translating to ") ++ toString targetCount ++
       (" languages...")), none, none⟩,
     ⟨none, some 80, some ("Downloading translated documents..."), none,
      none⟩,
     ⟨some ("failed"), none, some (("Error: ") ++ msg), none, some msg⟩]
  | .success resultPayload =>
    [⟨some ("running"), some 10, some ("Initializing batch translator..."),
      none, none⟩,
     ⟨none, some 20, some ("Preparing batch files..."), none, none⟩,
     ⟨none, some 40, some (("Translating to ") ++ toString targetCount ++
       (" languages...")), none, none⟩,
     ⟨none, some 80, some ("Downloading translated documents..."), none,
      none⟩,
     ⟨some ("completed"), some 100,
      some (("Batch translation completed for ") ++ toString targetCount ++
        (" languages")), some resultPayload, none⟩]

/-- Where `run_ocr_translation` (app.py lines 311-361) leaves its
straight-line path. -/
inductive OcrOutcome where
  | initRaises (msg : String)
  | processRaises (msg : String)
  | processReturnsNone
  | success (resultPayload : List (String × String))

/-- The `update` calls of `run_ocr_translation`, per outcome, read off
app.py lines 315, 321, 346-356, 358 and 361. -/
def runOcrCalls : OcrOutcome → List UpdateCall
  | .initRaises msg =>
    [⟨some ("running"), some 10, some ("Initializing OCR pipeline..."),
      none, none⟩,
     ⟨some ("failed"), none, some (("Error: ") ++ msg), none, some msg⟩]
  | .processRaises msg =>
    [⟨some ("running"), some 10, some ("Initializing OCR pipeline..."),
      none, none⟩,
     ⟨none, some 20, some ("Running OCR analysis..."), none, none⟩,
     ⟨some ("failed"), none, some (("Error: ") ++ msg), none, some msg⟩]
  | .processReturnsNone =>
    [⟨some ("running"), some 10, some ("Initializing OCR pipeline..."),
      none, none⟩,
     ⟨none, some 20, some ("Running OCR analysis..."), none, none⟩,
     ⟨some ("failed"), none, some ("OCR translation failed"), none,
      some ("No results returned")⟩]
  | .success resultPayload =>
    [⟨some ("running"), some 10, some ("Initializing OCR pipeline..."),
      none, none⟩,
     ⟨none, some 20, some ("Running OCR analysis..."), none, none⟩,
     ⟨some ("completed"), some 100,
      some ("OCR and translation completed successfully"),
      some resultPayload, none⟩]

/-- One dispatched job of any variant, with its outcome. -/
inductive JobRun where
  | single (targetLang : String) (o : SingleOutcome)
  | batch (targetCount : Nat) (o : BatchOutcome)
  | ocr (o : OcrOutcome)

/-- The update calls a run performs. -/
def runCalls : JobRun → List UpdateCall
  | .single t o => runSingleCalls t o
  | .batch n o => runBatchCalls n o
  | .ocr o => runOcrCalls o

/-- The successive registry-visible states of a record under a list of
update calls: the initial record, then the state after each call. -/
def recordStates (j0 : JobRecord) (calls : List UpdateCall) (now : String) :
    List JobRecord :=
  calls.scanl (fun j u => applyCall j u now) j0

/-- The progress values of those states. -/
def progressStates (j0 : JobRecord) (calls : List UpdateCall)
    (now : String) : List Nat :=
  (recordStates j0 calls now).map (fun j => j.progress)

/-! ### Output paths and the download surface -/

/-- Python `os.path.join(a, b)` for the arguments this application passes: `b` is
never absolute and `a` never ends with a separator, so the join is a plain
concatenation with one slash (the empty-`a` case returns `b` as in Python).
-/
def pyPathJoin (a b : String) : String :=
  if a == ("") then b else a ++ ("/") ++ b

/-- The configured `app.config['OUTPUT_FOLDER']` (app.py line 50). -/
def OUTPUT_FOLDER : String := ("outputs")

/-- Python `os.path.basename` (posix): the part after the last slash. -/
def pyBasename (p : String) : String :=
  String.mk ((p.toList.reverse.takeWhile (fun c => !(c == '/'))).reverse)

/-- The single-translation output artifact's filename
(app.py line 189): `translated_{target_language}_{basename}`. -/
def singleOutputFilename (target_language file_path : String) : String :=
  ("translated_") ++ target_language ++ ("_") ++ pyBasename file_path

/-- The single-translation output artifact's path (app.py line 190): the
file goes directly into the outputs folder, not into a per-job folder. -/
def singleOutputPath (target_language file_path : String) : String :=
  pyPathJoin OUTPUT_FOLDER (singleOutputFilename target_language file_path)

/-- The download URL placed in a single job's result (app.py line 212). -/
def singleDownloadUrl (target_language file_path : String) : String :=
  ("/download/") ++ singleOutputFilename target_language file_path

/-- The batch output folder `outputs/batch_{job_id}` (app.py line 280). -/
def batchOutputFolder (job_id : String) : String :=
  pyPathJoin OUTPUT_FOLDER (("batch_") ++ job_id)

/-- The per-language batch folder `outputs/batch_{job_id}/{lang}`
(app.py line 285). -/
def batchLangOutput (job_id lang : String) : String :=
  pyPathJoin (batchOutputFolder job_id) lang

/-- The OCR output folder `outputs/ocr_{job_id}` (app.py line 318). -/
def ocrOutputFolder (job_id : String) : String :=
  pyPathJoin OUTPUT_FOLDER (("ocr_") ++ job_id)

/-- The OCR searchable-copy path (ocr_translation_pipeline.py line 447 with
the copy's extension restored at line 202). -/
def ocrSearchablePath (job_id base ext : String) : String :=
  pyPathJoin (ocrOutputFolder job_id) (base ++ ("_searchable") ++ ext)

/-- The OCR transcript path (ocr_translation_pipeline.py line 479). -/
def ocrTextPath (job_id base : String) : String :=
  pyPathJoin (ocrOutputFolder job_id)
    (base ++ ("_searchable_ocr_text.txt"))

/-- The OCR translated-document path
(ocr_translation_pipeline.py lines 472-475). -/
def ocrTranslatedPath (job_id base target ext : String) : String :=
  pyPathJoin (ocrOutputFolder job_id)
    (base ++ ("_translated_") ++ target ++ ext)

/-- The download route `send_from_directory(OUTPUT_FOLDER, filename)`
(app.py line 503): a download path is resolved literally under the output
root. -/
def downloadResolve (filename : String) : String :=
  pyPathJoin OUTPUT_FOLDER filename

/-! ### The shared remote-submission step -/

/-- The request eventually handed to `begin_translation`: the pinned
source language (when present and non-empty) and the requested target
languages. -/
structure SubmitArgs where
  source_language : Option PyStr
  targets : List PyStr
deriving Repr, DecidableEq

/-- Python truthiness of the optional `source_language` string. -/
def truthyPy (o : Option PyStr) : Bool :=
  match o with | some s => !s.isEmpty | none => false

/-- The submission step of `SingleDocumentTranslator.translate_document`
(single_document_translation.py lines 266-297): when a source language is
pinned (truthy) and equals the target after lowering, a `ValueError` is
raised before `begin_translation` is called; otherwise the request is
submitted. -/
def singleSubmitPlan (target_language : PyStr)
    (source_language : Option PyStr) : Except PyStr SubmitArgs :=
  if truthyPy source_language then
    if pyLower (source_language.getD []) = pyLower target_language then
      .error (strCodes ("Source language (") ++ source_language.getD [] ++
        strCodes (") and target language (") ++ target_language ++
        strCodes (") are the same - no translation needed"))
    else
      .ok ⟨some (source_language.getD []), [target_language]⟩
  else
    .ok ⟨none, [target_language]⟩

/-- The submission step of `BatchDocumentTranslator.translate_batch`
(batch_translation.py lines 250-268): the pinned source language is added
to the request without any comparison against the target languages, and
the request is always submitted. -/
def batchSubmitPlan (target_languages : List PyStr)
    (source_language : Option PyStr) : Except PyStr SubmitArgs :=
  .ok ⟨if truthyPy source_language then source_language else none,
    target_languages⟩

/-- The submission step of `OCRTranslationPipeline.translate_document`
(ocr_translation_pipeline.py lines 335-351): as in the batch variant,
no source/target comparison is made; the request is always submitted. -/
def ocrSubmitPlan (target_language : PyStr)
    (source_language : Option PyStr) : Except PyStr SubmitArgs :=
  .ok ⟨if truthyPy source_language then source_language else none,
    [target_language]⟩

/-! ### Storage container names per job -/

/-- The containers a single-document job uses: `run_single_translation`
calls `translate_document` without container arguments (app.py lines
180-184), so the defaults `source` and `target`
(single_document_translation.py line 170) are shared by every single job,
whatever its job id. -/
def singleJobContainers (_job_id : PyStr) : List PyStr :=
  [strCodes ("source"), strCodes ("target")]

/-- Likewise every OCR job uses the default containers `ocr-source` and
`ocr-target` (`process_document` passes no container arguments,
ocr_translation_pipeline.py lines 453-457 and 265). -/
def ocrJobContainers (_job_id : PyStr) : List PyStr :=
  [strCodes ("ocr-source"), strCodes ("ocr-target")]

/-- The source container of a batch job (app.py line 251). -/
def batchSourceContainer (job_id : PyStr) : PyStr :=
  sanitize_container_name (strCodes ("batch-source-") ++ job_id)

/-- The sanitized stem of a batch job's target containers
(app.py line 252). -/
def batchTargetStem (job_id : PyStr) : PyStr :=
  sanitize_container_name (strCodes ("batch-target-") ++ job_id)

/-- A batch job's target container for one language: the stem with the
language appended (batch_translation.py line 197). -/
def batchTargetContainer (job_id lang : PyStr) : PyStr :=
  batchTargetStem job_id ++ 45 :: lang

/-- The container a batch job downloads one language's results from
(app.py line 287). -/
def batchDownloadContainer (job_id lang : PyStr) : PyStr :=
  sanitize_container_name (strCodes ("batch-target-") ++ job_id ++
    45 :: lang)

/-- All storage containers a batch job touches. -/
def batchJobContainers (job_id : PyStr) (langs : List PyStr) :
    List PyStr :=
  batchSourceContainer job_id ::
    (langs.map (batchTargetContainer job_id) ++
      langs.map (batchDownloadContainer job_id))

/-- A generated job id as the dispatcher builds it:
`{job_type}_{timestamp}` — lowercase alphanumerics and underscores, no two
adjacent underscores, alphanumeric at both ends, no hyphens, and short
enough that the derived container names need no truncation. -/
def jobIdOk (j : PyStr) : Bool :=
  j.all (fun n => isAlnumLower n || n == 95) && noTwoDashy j &&
  headAlnum j && lastAlnum j && decide (j.length ≤ 50)

/-- A language code as used in container names: non-empty lowercase
alphanumerics. -/
def langOk (l : PyStr) : Bool :=
  l.all isAlnumLower && decide (1 ≤ l.length)

/-! ### Batch result aggregation -/

/-- One per-document outcome reported by the remote poller
(batch_translation.py lines 290-333): its status, the basename of its
source document, the language it was translated to and the translated
document's URL. -/
structure DocOutcome where
  status : String
  source_file : String
  translated_to : String
  translated_url : String
deriving Repr, DecidableEq

/-- One entry of a per-language result list
(batch_translation.py lines 314-319). -/
structure BatchEntry where
  source : String
  url : String
  status : String
  detected_source_language : String
deriving Repr, DecidableEq

/-- The loop state of the result-collection loop
(batch_translation.py lines 281-284). -/
structure BatchAgg where
  results_by_language : List (String × List BatchEntry)
  detected_source_languages : List (String × String)
  success_count : Nat
  failure_count : Nat
deriving Repr, DecidableEq

/-- Python `results_by_language[target_lang].append(entry)` (line 314); a missing
key raises Python's KeyError.  All bindings of a key are updated, which
matches dict behaviour because duplicate keys always carry identical
values here. -/
def appendAt (m : List (String × List BatchEntry)) (k : String)
    (v : BatchEntry) : Except String (List (String × List BatchEntry)) :=
  if (m.lookup k).isSome then
    .ok (m.map (fun p => if p.1 = k then (p.1, p.2 ++ [v]) else p))
  else .error ("KeyError")

/-- Python `if source_file not in detected: detected[source_file] = lang`
(lines 304-305). -/
def setIfAbsent (m : List (String × String)) (k v : String) :
    List (String × String) :=
  if (m.lookup k).isSome then m else m ++ [(k, v)]

/-- One iteration of the collection loop (lines 290-333): a succeeded
document is appended to its target language's list, its detected-language
sentinel recorded, and the success counter bumped; a failed document only
bumps the failure counter; any other status is skipped. -/
def collectStep (acc : BatchAgg) (d : DocOutcome) :
    Except String BatchAgg :=
  if d.status == ("Succeeded") then
    match appendAt acc.results_by_language d.translated_to
        ⟨d.source_file, d.translated_url, ("success"), ("auto-detected")⟩
      with
    | .ok m =>
      .ok { results_by_language := m,
            detected_source_languages :=
              setIfAbsent acc.detected_source_languages d.source_file
                ("auto-detected"),
            success_count := acc.success_count + 1,
            failure_count := acc.failure_count }
    | .error e => .error e
  else if d.status == ("Failed") then
    .ok { acc with failure_count := acc.failure_count + 1 }
  else
    .ok acc

/-- The whole collection loop (lines 281-349), starting from
`{lang: [] for lang in target_languages}`. -/
def collectResults (target_languages : List String)
    (docs : List DocOutcome) : Except String BatchAgg :=
  docs.foldlM collectStep
    { results_by_language := target_languages.map (fun l => (l, [])),
      detected_source_languages := [], success_count := 0,
      failure_count := 0 }

/-- The entries a language's result list should contain: exactly the
successfully translated documents for that language, in order. -/
def successEntries (docs : List DocOutcome) (lang : String) :
    List BatchEntry :=
  (docs.filter (fun d => d.status == ("Succeeded") &&
      d.translated_to == lang)).map
    (fun d => ⟨d.source_file, d.translated_url, ("success"),
      ("auto-detected")⟩)

/-- The final record a runner leaves after performing all its update
calls. -/
def finalRecord (j0 : JobRecord) (calls : List UpdateCall) (now : String) :
    JobRecord :=
  calls.foldl (fun j u => applyCall j u now) j0

/-- The spec's partial-failure scenario: three source files, two target
languages, one document failing for one language. -/
def sampleBatchDocs : List DocOutcome :=
  [⟨("Succeeded"), ("a.pdf"), ("es"), ("u1")⟩,
   ⟨("Succeeded"), ("b.pdf"), ("es"), ("u2")⟩,
   ⟨("Succeeded"), ("c.pdf"), ("es"), ("u3")⟩,
   ⟨("Succeeded"), ("a.pdf"), ("fr"), ("u4")⟩,
   ⟨("Failed"), ("b.pdf"), ("fr"), ("")⟩,
   ⟨("Succeeded"), ("c.pdf"), ("fr"), ("u6")⟩]

/-! ### Theorems -/

theorem replaceOnce_length_le : ∀ s : PyStr, (replaceOnce s).length ≤ s.length
  | [] => Nat.le_refl _
  | [_] => Nat.le_refl _
  | a :: b :: rest => by
    cases hd : (a == 45 && b == 45) with
    | true =>
      have ih := replaceOnce_length_le rest
      simp [replaceOnce, hd]
      omega
    | false =>
      have ih := replaceOnce_length_le (b :: rest)
      simp [replaceOnce, hd]
      simp at ih
      omega

theorem replaceOnce_length_lt :
    ∀ s : PyStr, hasDoubleDash s = true → (replaceOnce s).length < s.length
  | a :: b :: rest, h => by
    cases hd : (a == 45 && b == 45) with
    | true =>
      have le := replaceOnce_length_le rest
      simp [replaceOnce, hd]
      omega
    | false =>
      have htl : hasDoubleDash (b :: rest) = true := by
        simp [hasDoubleDash, hd] at h
        exact h
      have ih := replaceOnce_length_lt (b :: rest) htl
      simp [replaceOnce, hd]
      simp at ih
      omega

/-- The fuel in `collapseDashes` is sufficient: the loop really exits with
no `--` left. -/
theorem hasDoubleDash_collapseAux :
    ∀ (fuel : Nat) (s : PyStr), s.length ≤ fuel →
      hasDoubleDash (collapseAux fuel s) = false
  | 0, s, hle => by
    match s, hle with
    | [], _ => simp [collapseAux, hasDoubleDash]
  | fuel + 1, s, hle => by
    cases hdd : hasDoubleDash s with
    | true =>
      have hlt := replaceOnce_length_lt s hdd
      have := hasDoubleDash_collapseAux fuel (replaceOnce s) (by omega)
      simpa [collapseAux, hdd] using this
    | false => simp [collapseAux, hdd]

theorem hasDoubleDash_collapseDashes (s : PyStr) :
    hasDoubleDash (collapseDashes s) = false :=
  hasDoubleDash_collapseAux s.length s (Nat.le_refl _)

theorem sanitize_sample_mixed : sanitize_container_name
    (strCodes ("My_Container--Name!")) =
    strCodes ("my-container-name") := by decide

theorem sanitize_sample_empty : sanitize_container_name (strCodes ("")) =
    strCodes ("xyz") := by decide

theorem sanitize_sample_dashes : sanitize_container_name
    (strCodes ("---")) = strCodes ("xyz") := by decide

theorem valid_sample : validContainerName
    (strCodes ("my-container-name")) = true := by decide

theorem pyLowerChar_cases (n : Nat) :
    (65 ≤ n ∧ n ≤ 90 ∧ pyLowerChar n = n + 32) ∨
    (n = 209 ∧ pyLowerChar n = 241) ∨
    (¬(65 ≤ n ∧ n ≤ 90) ∧ ¬(n = 209) ∧ pyLowerChar n = n) := by
  by_cases h1 : 65 ≤ n ∧ n ≤ 90
  · left
    refine ⟨h1.1, h1.2, ?_⟩
    rw [pyLowerChar, if_pos (by simp [isUpperCode]; omega)]
  · by_cases h2 : n = 209
    · right; left
      refine ⟨h2, ?_⟩
      rw [pyLowerChar, if_neg (by simp [isUpperCode]; omega),
        if_pos (by simp [h2])]
    · right; right
      refine ⟨h1, h2, ?_⟩
      rw [pyLowerChar, if_neg (by simp [isUpperCode]; omega),
        if_neg (by simp [h2])]

theorem isAlnumLower_pyIsAlnum {n : Nat} (h : isAlnumLower n = true) :
    pyIsAlnum n = true := by
  simp [isAlnumLower, pyIsAlnum, isUpperCode, isLowerCode, isDigitCode] at *
  omega

theorem goodChars_of_subset {s t : PyStr} (hsub : t ⊆ s)
    (hs : goodChars s = true) : goodChars t = true := by
  simp only [goodChars, List.all_eq_true] at *
  exact fun x hx => hs x (hsub hx)

theorem lowerReplace_char_not_upper (n : Nat) :
    isUpperCode (if pyLowerChar n == 95 then 45 else pyLowerChar n) = false := by
  rcases pyLowerChar_cases n with ⟨h1, h2, he⟩ | ⟨h1, he⟩ | ⟨h1, h2, he⟩ <;>
      rw [he] <;> split <;> simp_all [isUpperCode] <;> omega

theorem goodChars_filter_stage (s : PyStr) (hA : s.all isAscii = true) :
    goodChars ((lowerReplace s).filter keepChar) = true := by
  simp only [goodChars, List.all_eq_true, List.mem_filter, lowerReplace,
    List.mem_map]
  rintro x ⟨⟨n, hn, rfl⟩, hkeep⟩
  have hAn : n ≤ 127 := by
    simp only [List.all_eq_true] at hA
    simpa [isAscii] using hA n hn
  have hu := lowerReplace_char_not_upper n
  have hv : (if pyLowerChar n == 95 then 45 else pyLowerChar n) ≤ 127 := by
    rcases pyLowerChar_cases n with ⟨h1, h2, he⟩ | ⟨h1, he⟩ | ⟨h1, h2, he⟩ <;>
        rw [he] <;> split <;> omega
  revert hkeep hu hv
  simp [keepChar, pyIsAlnum, isAlnumLower, isUpperCode, isLowerCode,
    isDigitCode]
  omega

theorem replaceOnce_subset : ∀ s : PyStr, replaceOnce s ⊆ s
  | [] => by simp [replaceOnce]
  | [a] => by simp [replaceOnce]
  | a :: b :: rest => by
    cases hd : (a == 45 && b == 45) with
    | true =>
      have ih := replaceOnce_subset rest
      have hab : a = 45 := by simp at hd; omega
      intro x hx
      simp [replaceOnce, hd] at hx
      rcases hx with rfl | hx
      · exact hab ▸ List.mem_cons_self _ _
      · exact List.mem_cons_of_mem _ (List.mem_cons_of_mem _ (ih hx))
    | false =>
      have ih := replaceOnce_subset (b :: rest)
      intro x hx
      simp [replaceOnce, hd] at hx
      rcases hx with rfl | hx
      · exact List.mem_cons_self _ _
      · exact List.mem_cons_of_mem _ (ih hx)

theorem collapseAux_subset : ∀ (fuel : Nat) (s : PyStr), collapseAux fuel s ⊆ s
  | 0, s => by simp [collapseAux]
  | fuel + 1, s => by
    cases hdd : hasDoubleDash s with
    | true =>
      have ih := collapseAux_subset fuel (replaceOnce s)
      simp only [collapseAux, hdd, if_true]
      exact fun x hx => replaceOnce_subset s (ih hx)
    | false => simp [collapseAux, hdd]

theorem collapseDashes_subset (s : PyStr) : collapseDashes s ⊆ s :=
  collapseAux_subset s.length s

theorem hasDoubleDash_tail {a : Nat} {l : PyStr}
    (h : hasDoubleDash (a :: l) = false) : hasDoubleDash l = false := by
  match l with
  | [] => simp [hasDoubleDash]
  | b :: rest =>
    simp [hasDoubleDash] at h ⊢
    exact h.2

theorem hasDoubleDash_of_suffix {s t : PyStr} (h : t <:+ s)
    (hs : hasDoubleDash s = false) : hasDoubleDash t = false := by
  obtain ⟨r, rfl⟩ := h
  induction r with
  | nil => exact hs
  | cons a r ih => exact ih (hasDoubleDash_tail hs)

theorem hasDoubleDash_append_left :
    ∀ {t r : PyStr}, hasDoubleDash (t ++ r) = false → hasDoubleDash t = false
  | [], _, _ => by simp [hasDoubleDash]
  | [_], _, _ => by simp [hasDoubleDash]
  | a :: b :: tt, r, h => by
    simp only [List.cons_append, hasDoubleDash, Bool.or_eq_false_iff] at h ⊢
    exact ⟨h.1, hasDoubleDash_append_left (t := b :: tt) h.2⟩

theorem hasDoubleDash_of_pref {s t : PyStr} (h : t <+: s)
    (hs : hasDoubleDash s = false) : hasDoubleDash t = false := by
  obtain ⟨r, rfl⟩ := h
  exact hasDoubleDash_append_left hs

/-- Appending two `--`-free strings whose junction is not two hyphens stays
`--`-free. -/
theorem hasDoubleDash_append :
    ∀ {t r : PyStr}, hasDoubleDash t = false → hasDoubleDash r = false →
      ¬(t.getLast? = some 45 ∧ r.head? = some 45) →
      hasDoubleDash (t ++ r) = false
  | [], r, _, hr, _ => hr
  | [a], r, _, hr, hb => by
    match r, hr, hb with
    | [], _, _ => simp [hasDoubleDash]
    | c :: rr, hr, hb =>
      simp only [List.getLast?_singleton, List.head?_cons] at hb
      simp only [List.cons_append, List.singleton_append, hasDoubleDash,
        Bool.or_eq_false_iff]
      refine ⟨?_, hr⟩
      simp only [Bool.and_eq_false_iff]
      by_cases ha : a = 45
      · subst ha
        right
        have : ¬ c = 45 := fun hc => hb ⟨rfl, by rw [hc]⟩
        simp [this]
      · left
        simp [ha]
  | a :: b :: tt, r, ht, hr, hb => by
    simp only [hasDoubleDash, Bool.or_eq_false_iff] at ht
    have hb2 : ¬((b :: tt).getLast? = some 45 ∧ r.head? = some 45) := by
      simpa [List.getLast?_cons_cons] using hb
    have ih := hasDoubleDash_append (t := b :: tt) ht.2 hr hb2
    simp only [List.cons_append, hasDoubleDash, Bool.or_eq_false_iff]
    constructor
    · simpa using ht.1
    · simpa using ih

theorem headNotDash_lstripDash (s : PyStr) :
    headNotDash (lstripDash s) = true := by
  have h := List.head?_dropWhile_not (fun n => n == 45) s
  simp only [headNotDash, lstripDash]
  revert h
  match (s.dropWhile fun n => n == 45).head? with
  | some c => intro h; simp [h]
  | none => intro _; rfl

theorem rstripDash_pref (s : PyStr) : rstripDash s <+: s := by
  have h : (s.reverse.dropWhile (fun n => n == 45)).reverse <+: s.reverse.reverse :=
    List.reverse_prefix.mpr (List.dropWhile_suffix _)
  simpa using h

theorem lastNotDash_rstripDash (s : PyStr) :
    lastNotDash (rstripDash s) = true := by
  have h := List.head?_dropWhile_not (fun n => n == 45) s.reverse
  simp only [lastNotDash, rstripDash, List.getLast?_reverse]
  revert h
  match (s.reverse.dropWhile fun n => n == 45).head? with
  | some c => intro h; simp [h]
  | none => intro _; rfl

theorem head?_of_pref {s t : PyStr} (h : t <+: s) (hne : t ≠ []) :
    s.head? = t.head? := by
  obtain ⟨r, rfl⟩ := h
  match t, hne with
  | c :: tt, _ => simp

/-- Facts `goodChars`, absence of `--` and a non-hyphen head survive taking a
prefix of the string. -/
theorem tidy_parts_of_pref {s t : PyStr} (h : t <+: s)
    (hg : goodChars s = true) (hdd : hasDoubleDash s = false)
    (hh : headNotDash s = true) :
    goodChars t = true ∧ hasDoubleDash t = false ∧ headNotDash t = true := by
  refine ⟨goodChars_of_subset h.sublist.subset hg,
    hasDoubleDash_of_pref h hdd, ?_⟩
  match ht : t with
  | [] => rfl
  | c :: tt =>
    have hhd := head?_of_pref h (by simp)
    simp only [headNotDash] at hh ⊢
    rw [hhd] at hh
    exact hh

theorem tidy_nil : tidy [] = true := by decide

theorem tidy_stripDash {s : PyStr} (hg : goodChars s = true)
    (hdd : hasDoubleDash s = false) : tidy (stripDash s) = true := by
  have hgl : goodChars (lstripDash s) = true :=
    goodChars_of_subset (List.dropWhile_subset _) hg
  have hddl : hasDoubleDash (lstripDash s) = false :=
    hasDoubleDash_of_suffix (List.dropWhile_suffix _) hdd
  have hhl : headNotDash (lstripDash s) = true := headNotDash_lstripDash s
  have hpre := rstripDash_pref (lstripDash s)
  obtain ⟨hg2, hdd2, hh2⟩ := tidy_parts_of_pref hpre hgl hddl hhl
  have hl2 : lastNotDash (rstripDash (lstripDash s)) = true :=
    lastNotDash_rstripDash _
  simp [tidy, stripDash, hg2, hdd2, hh2, hl2]

theorem ensureStart_of_tidy {s : PyStr} (h : tidy s = true) :
    ensureStart s = s := by
  match s with
  | [] => rfl
  | c :: rest =>
    simp only [tidy, Bool.and_eq_true] at h
    have hh := h.1.2
    have hg := h.1.1.1
    simp only [headNotDash, List.head?_cons] at hh
    simp only [goodChars, List.all_cons, Bool.and_eq_true] at hg
    have halnum : isAlnumLower c = true := by
      have := hg.1
      simp at this hh
      rcases this with h1 | h1
      · exact h1
      · exact absurd h1 hh
    simp [ensureStart, isAlnumLower_pyIsAlnum halnum]

theorem truncate63_length (s : PyStr) (h : s.length ≤ 63) :
    (truncate63 s).length ≤ 63 := by
  simp only [truncate63]
  split
  · omega
  · exact h

theorem truncate63_length_of_long (s : PyStr) (h : s.length > 63) :
    (truncate63 s).length ≤ 63 := by
  simp only [truncate63, h, if_true]
  have := (rstripDash_pref (s.take 63)).length_le
  simp at this
  omega

theorem tidy_truncate63 {s : PyStr} (h : tidy s = true) :
    tidy (truncate63 s) = true := by
  simp only [truncate63]
  split
  · simp only [tidy, Bool.and_eq_true] at h
    obtain hg := h.1.1.1
    obtain hdd := h.1.1.2
    obtain hh := h.1.2
    have hddp : hasDoubleDash s = false := by simpa using hdd
    have htake := List.take_prefix 63 s
    obtain ⟨hg1, hdd1, hh1⟩ := tidy_parts_of_pref htake hg hddp hh
    obtain ⟨hg2, hdd2, hh2⟩ :=
      tidy_parts_of_pref (rstripDash_pref (s.take 63)) hg1 hdd1 hh1
    have hl2 := lastNotDash_rstripDash (s.take 63)
    simp [tidy, hg2, hdd2, hh2, hl2]
  · exact h

theorem head_alnum_of_tidy {s : PyStr} {c : Nat} (h : tidy s = true)
    (hc : s.head? = some c) : isAlnumLower c = true := by
  simp only [tidy, Bool.and_eq_true] at h
  have hg := h.1.1.1
  have hh := h.1.2
  have hmem : c ∈ s := by
    match s, hc with
    | _ :: _, hc => simp at hc; simp [hc]
  simp only [goodChars, List.all_eq_true] at hg
  have := hg c hmem
  simp only [headNotDash, hc] at hh
  simp at this hh
  rcases this with h1 | h1
  · exact h1
  · exact absurd h1 hh

theorem last_alnum_of_tidy {s : PyStr} {c : Nat} (h : tidy s = true)
    (hc : s.getLast? = some c) : isAlnumLower c = true := by
  simp only [tidy, Bool.and_eq_true] at h
  have hg := h.1.1.1
  have hl := h.2
  have hmem : c ∈ s := List.mem_of_getLast?_eq_some hc
  simp only [goodChars, List.all_eq_true] at hg
  have := hg c hmem
  simp only [lastNotDash, hc] at hl
  simp at this hl
  rcases this with h1 | h1
  · exact h1
  · exact absurd h1 hl

theorem validHead_of_tidy {t : PyStr} (h : tidy t = true) (hne : t ≠ []) :
    headAlnum t = true := by
  match t, h, hne with
  | c :: tt, h, _ =>
    have halnum := head_alnum_of_tidy h rfl
    simp [headAlnum, halnum]

theorem validLast_of_tidy {t : PyStr} (h : tidy t = true) (hne : t ≠ []) :
    lastAlnum t = true := by
  rw [lastAlnum]
  match hgl : t.getLast? with
  | some c =>
    have halnum := last_alnum_of_tidy h hgl
    simp [halnum]
  | none =>
    rw [List.getLast?_eq_none_iff] at hgl
    exact absurd hgl hne

/-- Core validity lemma: on all-ASCII input (where the model of Python's
case and alphanumeric tables is exact) the output of
`sanitize_container_name` satisfies the ContainerName invariant. -/
theorem sanitize_valid_core (s : PyStr) (hA : s.all isAscii = true) :
    validContainerName (sanitize_container_name s) = true := by
  rw [sanitize_container_name]
  set f := (lowerReplace s).filter keepChar with hf
  have hg0 : goodChars f = true := goodChars_filter_stage s hA
  have hddc : hasDoubleDash (collapseDashes f) = false :=
    hasDoubleDash_collapseDashes f
  have hgc : goodChars (collapseDashes f) = true :=
    goodChars_of_subset (collapseDashes_subset f) hg0
  have htidy : tidy (stripDash (collapseDashes f)) = true :=
    tidy_stripDash hgc hddc
  set m := stripDash (collapseDashes f) with hm
  rw [ensureStart_of_tidy htidy]
  have ht : tidy (truncate63 m) = true := tidy_truncate63 htidy
  have hlen : (truncate63 m).length ≤ 63 := by
    by_cases hc : m.length ≤ 63
    · exact truncate63_length m hc
    · exact truncate63_length_of_long m (by omega)
  set t := truncate63 m with hts
  have hddt : hasDoubleDash t = false := by
    simp only [tidy, Bool.and_eq_true] at ht
    simpa using ht.1.1.2
  have hg : goodChars t = true := by
    simp only [tidy, Bool.and_eq_true] at ht
    exact ht.1.1.1
  have hl : lastNotDash t = true := by
    simp only [tidy, Bool.and_eq_true] at ht
    exact ht.2
  simp only [padMin3]
  split
  · -- padded with xyz
    rename_i hshort
    have hhead : headAlnum (t ++ [120, 121, 122]) = true := by
      rw [headAlnum, List.head?_append]
      match hh0 : t.head? with
      | none => decide
      | some c =>
        have halnum := head_alnum_of_tidy ht hh0
        simp [hh0, halnum]
    have hlast : lastAlnum (t ++ [120, 121, 122]) = true := by
      rw [lastAlnum, List.getLast?_append]
      rw [show ([120, 121, 122] : PyStr).getLast? = some 122 from rfl,
        Option.or_some]
      decide
    have hall : (t ++ [120, 121, 122]).all (fun n => isAlnumLower n || n == 45)
        = true := by
      rw [List.all_append]
      simp only [Bool.and_eq_true]
      exact ⟨hg, by decide⟩
    have hddp : hasDoubleDash (t ++ [120, 121, 122]) = false := by
      refine hasDoubleDash_append hddt (by decide) ?_
      rintro ⟨hc, -⟩
      simp only [lastNotDash, hc] at hl
      simp at hl
    simp only [validContainerName, Bool.and_eq_true]
    refine ⟨⟨⟨⟨⟨?_, ?_⟩, hall⟩, hhead⟩, hlast⟩, by simp [hddp]⟩
    · simp only [List.length_append, List.length_cons, List.length_nil,
        decide_eq_true_eq]
      omega
    · simp only [List.length_append, List.length_cons, List.length_nil,
        decide_eq_true_eq]
      omega
  · -- already at least 3 characters
    rename_i hlong
    have hne : t ≠ [] := by
      intro hnil
      rw [hnil] at hlong
      simp at hlong
    simp only [validContainerName, Bool.and_eq_true]
    refine ⟨⟨⟨⟨⟨?_, ?_⟩, hg⟩, validHead_of_tidy ht hne⟩,
      validLast_of_tidy ht hne⟩, by simp [hddt]⟩
    · simp only [decide_eq_true_eq]
      omega
    · simp only [decide_eq_true_eq]
      omega

theorem lowerReplace_eq_hyphenize {s : PyStr}
    (h : s.all tameChar = true) : lowerReplace s = hyphenize s := by
  rw [lowerReplace, hyphenize]
  refine List.map_congr_left ?_
  intro a ha
  simp only [List.all_eq_true] at h
  have := h a ha
  simp [tameChar, isAlnumLower, isLowerCode, isDigitCode] at this
  have hnu : isUpperCode a = false := by
    simp [isUpperCode]
    omega
  have hn209 : (a == 209) = false := by
    simp
    omega
  simp [pyLowerChar, hnu, hn209, hyphChar]

theorem filter_hyphenize_eq {s : PyStr}
    (h : s.all tameChar = true) :
    (hyphenize s).filter keepChar = hyphenize s := by
  rw [List.filter_eq_self]
  intro a ha
  simp only [hyphenize, List.mem_map] at ha
  obtain ⟨n, hn, rfl⟩ := ha
  simp only [List.all_eq_true] at h
  have hc := h n hn
  simp [tameChar, isAlnumLower, isLowerCode, isDigitCode] at hc
  by_cases h95 : n = 95
  · subst h95
    decide
  · have hid : hyphChar n = n := by simp [hyphChar, h95]
    rw [hid]
    simp [keepChar, pyIsAlnum, isUpperCode, isLowerCode, isDigitCode]
    omega

theorem hyphChar_eq_dash_iff (n : Nat) : (hyphChar n == 45) = dashy n := by
  simp [hyphChar, dashy]
  split <;> simp_all

theorem hasDoubleDash_hyphenize :
    ∀ {s : PyStr}, noTwoDashy s = true → hasDoubleDash (hyphenize s) = false
  | [], _ => rfl
  | [_], _ => rfl
  | a :: b :: rest, h => by
    simp only [noTwoDashy, Bool.and_eq_true] at h
    have ih := hasDoubleDash_hyphenize (s := b :: rest) h.2
    simp only [hyphenize, List.map_cons] at ih ⊢
    simp only [hasDoubleDash, Bool.or_eq_false_iff]
    refine ⟨?_, ih⟩
    rw [hyphChar_eq_dash_iff, hyphChar_eq_dash_iff]
    have h1 := h.1
    cases hdb : (dashy a && dashy b) with
    | false => rfl
    | true => rw [hdb] at h1; simp at h1

theorem collapseAux_of_no_dd {s : PyStr} (h : hasDoubleDash s = false) :
    ∀ fuel, collapseAux fuel s = s
  | 0 => rfl
  | fuel + 1 => by simp [collapseAux, h]

theorem collapseDashes_of_no_dd {s : PyStr} (h : hasDoubleDash s = false) :
    collapseDashes s = s :=
  collapseAux_of_no_dd h s.length

theorem lstripDash_of_headAlnum {s : PyStr} (h : headAlnum s = true) :
    lstripDash s = s := by
  match s, h with
  | c :: rest, h =>
    simp only [headAlnum, List.head?_cons] at h
    have : ¬(c == 45) = true := by
      simp only [isAlnumLower, isLowerCode, isDigitCode] at h
      simp at h ⊢
      omega
    simp [lstripDash, List.dropWhile_cons, this]

theorem rstripDash_of_lastAlnum {s : PyStr} (h : lastAlnum s = true) :
    rstripDash s = s := by
  have hrev : headAlnum s.reverse = true := by
    rw [headAlnum, List.head?_reverse]
    rw [lastAlnum] at h
    exact h
  have := lstripDash_of_headAlnum hrev
  rw [lstripDash] at this
  rw [rstripDash, this, List.reverse_reverse]

theorem headAlnum_hyphenize {s : PyStr} (h : headAlnum s = true) :
    headAlnum (hyphenize s) = true := by
  match s, h with
  | c :: rest, h =>
    simp only [headAlnum, List.head?_cons] at h ⊢
    simp only [hyphenize, List.map_cons, List.head?_cons]
    simp only [isAlnumLower, isLowerCode, isDigitCode] at h
    simp at h
    have : hyphChar c = c := by
      simp [hyphChar]
      omega
    rw [this]
    simp [isAlnumLower, isLowerCode, isDigitCode]
    omega

theorem lastAlnum_hyphenize {s : PyStr} (h : lastAlnum s = true) :
    lastAlnum (hyphenize s) = true := by
  rw [lastAlnum] at h ⊢
  rw [hyphenize, List.getLast?_map]
  match hgl : s.getLast? with
  | none => rw [hgl] at h; exact h
  | some c =>
    rw [hgl] at h
    simp only [Option.map_some']
    simp only [isAlnumLower, isLowerCode, isDigitCode] at h
    simp at h
    have : hyphChar c = c := by
      simp [hyphChar]
      omega
    rw [this]
    simp [isAlnumLower, isLowerCode, isDigitCode]
    omega

theorem headAlnum_notDash {s : PyStr} (h : headAlnum s = true) :
    headNotDash s = true := by
  rw [headAlnum] at h
  rw [headNotDash]
  match hh : s.head? with
  | none => rfl
  | some c =>
    rw [hh] at h
    simp only [isAlnumLower, isLowerCode, isDigitCode] at h
    simp at h ⊢
    omega

theorem lastAlnum_notDash {s : PyStr} (h : lastAlnum s = true) :
    lastNotDash s = true := by
  rw [lastAlnum] at h
  rw [lastNotDash]
  match hh : s.getLast? with
  | none => rfl
  | some c =>
    rw [hh] at h
    simp only [isAlnumLower, isLowerCode, isDigitCode] at h
    simp at h ⊢
    omega

/-- On tame strings the sanitizer only replaces underscores by hyphens. -/
theorem sanitize_tame {s : PyStr} (h : tame s = true) :
    sanitize_container_name s = hyphenize s := by
  simp only [tame, Bool.and_eq_true, decide_eq_true_eq] at h
  obtain ⟨⟨⟨⟨⟨hchars, hsep⟩, hhead⟩, hlast⟩, hlen3⟩, hlen63⟩ := h
  rw [sanitize_container_name]
  rw [lowerReplace_eq_hyphenize hchars, filter_hyphenize_eq hchars]
  rw [collapseDashes_of_no_dd (hasDoubleDash_hyphenize hsep)]
  rw [stripDash, lstripDash_of_headAlnum (headAlnum_hyphenize hhead),
    rstripDash_of_lastAlnum (lastAlnum_hyphenize hlast)]
  have hlenh : (hyphenize s).length = s.length := by
    simp [hyphenize]
  have hes : ensureStart (hyphenize s) = hyphenize s := by
    match hh : hyphenize s, headAlnum_hyphenize hhead with
    | c :: rest, hha =>
      simp only [headAlnum, List.head?_cons] at hha
      simp [ensureStart, isAlnumLower_pyIsAlnum hha]
  rw [hes, truncate63, if_neg (by omega), padMin3, if_neg (by omega)]

theorem noTwoDashy_of_no_dd :
    ∀ {s : PyStr}, (∀ a ∈ s, ¬(a = 95)) → hasDoubleDash s = false →
      noTwoDashy s = true
  | [], _, _ => rfl
  | [_], _, _ => rfl
  | a :: b :: rest, h95, hdd => by
    simp only [hasDoubleDash, Bool.or_eq_false_iff] at hdd
    have ih := noTwoDashy_of_no_dd (s := b :: rest)
      (fun x hx => h95 x (List.mem_cons_of_mem _ hx)) hdd.2
    simp only [noTwoDashy, Bool.and_eq_true]
    refine ⟨?_, ih⟩
    have hna := h95 a (List.mem_cons_self _ _)
    have hnb := h95 b (List.mem_cons_of_mem _ (List.mem_cons_self _ _))
    have h1 := hdd.1
    simp [dashy] at h1 ⊢
    omega

/-- A string satisfying the ContainerName invariant is tame and is fixed by
hyphenization (it contains no underscore). -/
theorem valid_tame {s : PyStr} (h : validContainerName s = true) :
    tame s = true ∧ hyphenize s = s := by
  simp only [validContainerName, Bool.and_eq_true, decide_eq_true_eq] at h
  obtain ⟨⟨⟨⟨⟨hlen3, hlen63⟩, hchars⟩, hhead⟩, hlast⟩, hdd⟩ := h
  have hno95 : ∀ a ∈ s, ¬(a = 95) := by
    intro a ha h95
    simp only [List.all_eq_true] at hchars
    have := hchars a ha
    subst h95
    simp [isAlnumLower, isLowerCode, isDigitCode] at this
  have hid : hyphenize s = s := by
    rw [hyphenize]
    refine (List.map_congr_left ?_).trans (List.map_id s)
    intro a ha
    simp [hyphChar, hno95 a ha]
  refine ⟨?_, hid⟩
  have hsep : noTwoDashy s = true :=
    noTwoDashy_of_no_dd hno95 (by simpa using hdd)
  have hchars2 : s.all tameChar = true := by
    simp only [List.all_eq_true] at hchars ⊢
    intro a ha
    have := hchars a ha
    simp [tameChar] at this ⊢
    tauto
  simp only [tame, Bool.and_eq_true, decide_eq_true_eq]
  exact ⟨⟨⟨⟨⟨hchars2, hsep⟩, hhead⟩, hlast⟩, hlen3⟩, hlen63⟩

/-- C1 counterexample: on the non-ASCII input "ÑÑÑ" (three copies of
codepoint 209, which Python's `str.isalnum` accepts and `str.lower` maps to
codepoint 241), `sanitize_container_name` returns "ñññ" (three copies of
codepoint 241), which violates the ContainerName invariant: its characters
are not in `[a-z0-9-]`. -/
theorem sanitize_unicode_breaks_invariant_cex :
    sanitize_container_name ([209, 209, 209] : PyStr) = [241, 241, 241] ∧
    validContainerName ([241, 241, 241] : PyStr) = false := by
  constructor
  · rfl
  · decide

/-- C1 (amended): for every input string consisting of ASCII characters,
including the empty string, `sanitize_container_name` returns a string that
satisfies the ContainerName invariant: length between 3 and 63, containing
only lowercase letters, digits and hyphens, starting and ending with a
letter or digit, and containing no `--` substring. For non-ASCII input the
invariant can fail, because `str.isalnum` accepts and `str.lower` preserves
alphanumeric codepoints outside `[a-z0-9]`, which the sanitizer then keeps. -/
theorem sanitize_ascii_satisfies_invariant (s : PyStr)
    (hA : s.all isAscii = true) :
    validContainerName (sanitize_container_name s) = true :=
  sanitize_valid_core s hA

theorem sanitize_ascii_satisfies_invariant_witness :
    ((strCodes ("My_Container--Name!")).all isAscii = true) ∧
    validContainerName
      (sanitize_container_name (strCodes ("My_Container--Name!"))) = true :=
  ⟨by decide, sanitize_ascii_satisfies_invariant _ (by decide)⟩

/-- Idempotence of the sanitizer on the ASCII fragment, where the model of
Python's case and alphanumeric tables is exact: the output satisfies the
ContainerName invariant, and on such strings the sanitizer acts as the
identity. The fully universal idempotence claim ranges over Python's
complete Unicode case mapping, which is context-sensitive (final sigma) and
occasionally length-increasing (U+0130), so it is not expressible in this
character-wise embedding and is left unsettled. -/
theorem sanitize_idempotent_on_ascii (s : PyStr)
    (hA : s.all isAscii = true) :
    sanitize_container_name (sanitize_container_name s) =
      sanitize_container_name s := by
  obtain ⟨htame, hid⟩ := valid_tame (sanitize_valid_core s hA)
  rw [sanitize_tame htame, hid]

/-- C3 counterexample: a second `update` call with a terminal status at a
later time overwrites `completed_at`, so it is not stamped exactly once. -/
theorem update_terminal_restamps_cex :
    ((((JobRecord.init ("job1") ("single") ("t0")).update (some ("failed"))
        none (some ("Error: x")) none (some ("x")) ("t1")).update
        (some ("failed")) none none none none ("t2")).completed_at
      = some ("t2")) ∧
    (((JobRecord.init ("job1") ("single") ("t0")).update (some ("failed"))
        none (some ("Error: x")) none (some ("x")) ("t1")).completed_at
      = some ("t1")) := by
  decide

/-- C3 amended: `completed_at` is stamped with the call's timestamp by
every `update` call whose `status` argument is terminal (in particular by
the first terminal transition), and left unchanged by every other call; a
later terminal update therefore overwrites it rather than leaving it
unchanged. -/
theorem update_completed_at_semantics (j : JobRecord) (st : Option String)
    (p : Option Nat) (m : Option String)
    (r : Option (List (String × String))) (e : Option String) (now : String) :
    (j.update st p m r e now).completed_at =
      if st = some ("completed") ∨ st = some ("failed") then some now
      else j.completed_at := by
  simp only [JobRecord.update]
  split
  · split
    · rfl
    · simp_all
  · split
    · simp_all
    · rfl

/-- C4 counterexample: an exception whose message is the empty string
leaves the record failed with `error` still null, because the handler's
`error=str(e)` argument is dropped by the `if error:` truthiness test. -/
theorem failed_with_null_error_cex :
    (onWorkerException (JobRecord.init ("job1") ("single") ("t0")) ("")
        ("t1")).status = ("failed") ∧
    (onWorkerException (JobRecord.init ("job1") ("single") ("t0")) ("")
        ("t1")).error = none := by
  decide

/-- C4 amended: an exception caught at the worker-thread boundary leaves
the record with `status=failed`, a stamped `completed_at`, and `error`
equal to the exception's message provided that message is non-empty (an
empty message leaves `error` unchanged). -/
theorem worker_exception_reports_error (j : JobRecord) (msg now : String)
    (h : msg ≠ ("")) :
    (onWorkerException j msg now).status = ("failed") ∧
    (onWorkerException j msg now).error = some msg ∧
    (onWorkerException j msg now).completed_at = some now := by
  simp only [onWorkerException, JobRecord.update, truthyStr]
  refine ⟨by simp, ?_, by simp⟩
  simp [h]

theorem worker_exception_reports_error_witness :
    (onWorkerException (JobRecord.init ("job1") ("single") ("t0")) ("boom")
        ("t1")).status = ("failed") ∧
    (onWorkerException (JobRecord.init ("job1") ("single") ("t0")) ("boom")
        ("t1")).error = some ("boom") ∧
    (onWorkerException (JobRecord.init ("job1") ("single") ("t0")) ("boom")
        ("t1")).completed_at = some ("t1") :=
  worker_exception_reports_error _ ("boom") ("t1") (by decide)

/-- C2 counterexample (the spec's end-to-end scenario B): dispatching
`single` with pinned source `es` and target `es` is not rejected — a job_id
is returned with an ok response and a pending record has entered the
registry. -/
theorem dispatch_scenarioB_cex :
    (start_translation ("single") [("uploads/doc.pdf")] [("es")]
        (some ("es")) ("20250101_120000") ("t0") []).1 =
      Response.ok ("single_20250101_120000")
        (JobRecord.init ("single_20250101_120000") ("single") ("t0")) ∧
    (start_translation ("single") [("uploads/doc.pdf")] [("es")]
        (some ("es")) ("20250101_120000") ("t0") []).2.1 =
      [(("single_20250101_120000"),
        JobRecord.init ("single_20250101_120000") ("single") ("t0"))] ∧
    (start_translation ("single") [("uploads/doc.pdf")] [("es")]
        (some ("es")) ("20250101_120000") ("t0") []).2.2 =
      WorkerLaunch.single ("uploads/doc.pdf") ("es") (some ("es")) := by
  decide

/-- C2 amended: a request that passes the non-emptiness precheck but fails
the single/OCR arity validation is rejected with a 400 error and no worker
thread is started — but only after a pending JobRecord has been inserted
into the registry, where it remains; and the pinned-source-equals-target
condition is not validated by the dispatcher at all (such requests are
accepted with a job_id, as the counterexample shows). -/
theorem dispatch_arity_failure_after_insert (job_type : String)
    (files : List String) (target_languages : List String)
    (source_language : Option String) (timestamp now : String)
    (jobs : Registry) (hfiles : files ≠ []) (htl : target_languages ≠ [])
    (hty : job_type = ("single") ∨ job_type = ("ocr"))
    (harity : files.length ≠ 1 ∨ target_languages.length ≠ 1) :
    ∃ m, start_translation job_type files target_languages source_language
        timestamp now jobs =
      (.err 400 m,
        dictSet jobs (job_type ++ ("_") ++ timestamp)
          (JobRecord.init (job_type ++ ("_") ++ timestamp) job_type now),
        .noLaunch) := by
  have hne : (files.isEmpty || target_languages.isEmpty) = false := by
    simp [List.isEmpty_iff, hfiles, htl]
  rcases hty with hty | hty <;> subst hty
  · refine ⟨("Single translation requires exactly one file and one language"),
      ?_⟩
    rw [start_translation]
    rw [hne]
    simp only [Bool.false_eq_true, if_false, if_pos rfl]
    match files, target_languages, hfiles, htl, harity with
    | [f], [t], _, _, harity => simp at harity
    | [f], t1 :: t2 :: ts, _, _, _ => rfl
    | f1 :: f2 :: fs, t :: ts, _, _, _ => rfl
  · refine ⟨("OCR translation requires exactly one file and one language"),
      ?_⟩
    rw [start_translation]
    rw [hne]
    simp only [Bool.false_eq_true, if_false]
    rw [if_neg (by decide), if_neg (by decide), if_pos (by decide)]
    match files, target_languages, hfiles, htl, harity with
    | [f], [t], _, _, harity => simp at harity
    | [f], t1 :: t2 :: ts, _, _, _ => rfl
    | f1 :: f2 :: fs, t :: ts, _, _, _ => rfl

theorem dispatch_arity_failure_after_insert_witness :
    ([("uploads/a.pdf"), ("uploads/b.pdf")] : List String) ≠ [] ∧
    ([("fr")] : List String) ≠ [] ∧
    (∃ m, start_translation ("single")
        [("uploads/a.pdf"), ("uploads/b.pdf")] [("fr")] none
        ("20250101_120000") ("t0") [] =
      (.err 400 m,
        dictSet [] (("single") ++ ("_") ++ ("20250101_120000"))
          (JobRecord.init (("single") ++ ("_") ++ ("20250101_120000"))
            ("single") ("t0")),
        .noLaunch)) :=
  ⟨by decide, by decide,
    dispatch_arity_failure_after_insert ("single")
      [("uploads/a.pdf"), ("uploads/b.pdf")] [("fr")] none
      ("20250101_120000") ("t0") [] (by decide) (by decide) (Or.inl rfl)
      (by decide)⟩

/-- C7: for every job of every variant and every outcome, the sequence of
progress values observable through successive status polls (a subsequence
of the full state history, which is shown non-decreasing here) never
decreases. -/
theorem job_progress_monotone (r : JobRun) (job_id job_type started now :
    String) :
    List.Chain' (fun a b => a ≤ b)
      (progressStates (JobRecord.init job_id job_type started) (runCalls r)
        now) := by
  cases r with
  | single t o =>
    cases o with
    | initRaises msg =>
      show List.Chain' (fun a b => a ≤ b) ([0, 10, 10] : List Nat)
      simp [List.chain'_cons]
    | translateRaises msg =>
      show List.Chain' (fun a b => a ≤ b) ([0, 10, 30, 30] : List Nat)
      simp [List.chain'_cons]
    | translateReturnsNone =>
      show List.Chain' (fun a b => a ≤ b) ([0, 10, 30, 30] : List Nat)
      simp [List.chain'_cons]
    | downloadRaises msg =>
      show List.Chain' (fun a b => a ≤ b) ([0, 10, 30, 80, 80] : List Nat)
      simp [List.chain'_cons]
    | success f d =>
      show List.Chain' (fun a b => a ≤ b) ([0, 10, 30, 80, 100] : List Nat)
      simp [List.chain'_cons]
  | batch n o =>
    cases o with
    | initRaises msg =>
      show List.Chain' (fun a b => a ≤ b) ([0, 10, 10] : List Nat)
      simp [List.chain'_cons]
    | prepareRaises msg =>
      show List.Chain' (fun a b => a ≤ b) ([0, 10, 20, 20] : List Nat)
      simp [List.chain'_cons]
    | translateRaises msg =>
      show List.Chain' (fun a b => a ≤ b) ([0, 10, 20, 40, 40] : List Nat)
      simp [List.chain'_cons]
    | downloadRaises msg =>
      show List.Chain' (fun a b => a ≤ b)
        ([0, 10, 20, 40, 80, 80] : List Nat)
      simp [List.chain'_cons]
    | success res =>
      show List.Chain' (fun a b => a ≤ b)
        ([0, 10, 20, 40, 80, 100] : List Nat)
      simp [List.chain'_cons]
  | ocr o =>
    cases o with
    | initRaises msg =>
      show List.Chain' (fun a b => a ≤ b) ([0, 10, 10] : List Nat)
      simp [List.chain'_cons]
    | processRaises msg =>
      show List.Chain' (fun a b => a ≤ b) ([0, 10, 20, 20] : List Nat)
      simp [List.chain'_cons]
    | processReturnsNone =>
      show List.Chain' (fun a b => a ≤ b) ([0, 10, 20, 20] : List Nat)
      simp [List.chain'_cons]
    | success res =>
      show List.Chain' (fun a b => a ≤ b) ([0, 10, 20, 100] : List Nat)
      simp [List.chain'_cons]

/-- C9 counterexample: a single job's artifact is written to
`outputs/translated_{lang}_{basename}`, directly in the outputs folder —
not under `outputs/{job_id}` as the claim requires. -/
theorem single_output_layout_cex :
    singleOutputPath ("es") ("uploads/20250101_doc.pdf") =
      ("outputs/translated_es_20250101_doc.pdf") ∧
    (("outputs/single_20250101_120000/").toList).isPrefixOf
      ((singleOutputPath ("es") ("uploads/20250101_doc.pdf")).toList)
      = false := by
  decide

theorem append_left_ne_empty (a b : String) (h : a ≠ ("")) :
    a ++ b ≠ ("") := by
  intro he
  apply h
  have hd := congrArg String.data he
  rw [String.data_append] at hd
  have ha : a.data = [] := (List.append_eq_nil.mp hd).1
  exact String.ext (by rw [ha])

theorem pyPathJoin_of_ne (a b : String) (h : a ≠ ("")) :
    pyPathJoin a b = a ++ ("/") ++ b := by
  rw [pyPathJoin, if_neg (by simp [h])]

/-- C9 amended: batch artifacts live under
`outputs/batch_{job_id}/{language}` and OCR artifacts under
`outputs/ocr_{job_id}`, as the claim states; a single job's artifact is
instead written directly into `outputs/` as
`translated_{language}_{basename}`, and the download URL recorded in its
result resolves literally to that path. -/
theorem output_layout_per_variant (job_id lang fp base ext target :
    String) :
    batchLangOutput job_id lang =
      ("outputs") ++ ("/") ++ ("batch_") ++ job_id ++ ("/") ++ lang ∧
    ocrTextPath job_id base =
      ("outputs") ++ ("/") ++ ("ocr_") ++ job_id ++ ("/") ++ base ++
        ("_searchable_ocr_text.txt") ∧
    ocrSearchablePath job_id base ext =
      ("outputs") ++ ("/") ++ ("ocr_") ++ job_id ++ ("/") ++ base ++
        ("_searchable") ++ ext ∧
    ocrTranslatedPath job_id base target ext =
      ("outputs") ++ ("/") ++ ("ocr_") ++ job_id ++ ("/") ++ base ++
        ("_translated_") ++ target ++ ext ∧
    singleOutputPath lang fp =
      ("outputs") ++ ("/") ++ singleOutputFilename lang fp ∧
    downloadResolve (singleOutputFilename lang fp) =
      singleOutputPath lang fp := by
  have h1 : (("outputs") : String) ≠ ("") := by decide
  have h2 := append_left_ne_empty _ ("/") h1
  refine ⟨?_, ?_, ?_, ?_, ?_, ?_⟩
  · rw [batchLangOutput, batchOutputFolder, OUTPUT_FOLDER,
      pyPathJoin_of_ne _ _ h1,
      pyPathJoin_of_ne _ _ (append_left_ne_empty _ _ h2)]
    simp [← String.append_assoc]
  · rw [ocrTextPath, ocrOutputFolder, OUTPUT_FOLDER,
      pyPathJoin_of_ne _ _ h1,
      pyPathJoin_of_ne _ _ (append_left_ne_empty _ _ h2)]
    simp [← String.append_assoc]
  · rw [ocrSearchablePath, ocrOutputFolder, OUTPUT_FOLDER,
      pyPathJoin_of_ne _ _ h1,
      pyPathJoin_of_ne _ _ (append_left_ne_empty _ _ h2)]
    simp [← String.append_assoc]
  · rw [ocrTranslatedPath, ocrOutputFolder, OUTPUT_FOLDER,
      pyPathJoin_of_ne _ _ h1,
      pyPathJoin_of_ne _ _ (append_left_ne_empty _ _ h2)]
    simp [← String.append_assoc]
  · rw [singleOutputPath, OUTPUT_FOLDER, pyPathJoin_of_ne _ _ h1]
  · rw [downloadResolve, singleOutputPath, OUTPUT_FOLDER,
      pyPathJoin_of_ne _ _ h1]

/-- C6 counterexample: in the batch and OCR variants a pinned source
language equal to a requested target language is not rejected — the
request is submitted to the remote service with that source and target. -/
theorem batch_ocr_submit_equal_languages_cex :
    batchSubmitPlan [strCodes ("es")] (some (strCodes ("es"))) =
      Except.ok ⟨some (strCodes ("es")), [strCodes ("es")]⟩ ∧
    ocrSubmitPlan (strCodes ("es")) (some (strCodes ("es"))) =
      Except.ok ⟨some (strCodes ("es")), [strCodes ("es")]⟩ :=
  ⟨rfl, rfl⟩

/-- C6 amended: only the single-document variant validates a pinned source
language against the target: when the pinned source equals the target
after case-folding, `translate_document` raises before submitting the
request, so no remote submission occurs; the batch and OCR variants
perform no such validation (counterexample above). -/
theorem single_equal_languages_fails_before_submit (t s : PyStr)
    (hne : s ≠ []) (heq : pyLower s = pyLower t) :
    ∃ m, singleSubmitPlan t (some s) = .error m := by
  have ht : truthyPy (some s) = true := by
    simp [truthyPy, hne]
  exact ⟨_, by rw [singleSubmitPlan, if_pos ht,
    if_pos (by simpa using heq)]⟩

theorem single_equal_languages_fails_before_submit_witness :
    strCodes ("es") ≠ [] ∧
    pyLower (strCodes ("es")) = pyLower (strCodes ("ES")) ∧
    (∃ m, singleSubmitPlan (strCodes ("ES")) (some (strCodes ("es"))) =
      .error m) :=
  ⟨by decide, by decide,
    single_equal_languages_fails_before_submit (strCodes ("ES"))
      (strCodes ("es")) (by decide) (by decide)⟩

/-- C5 counterexample: two distinct single jobs use the same containers
`source` and `target`, so their container sets are not disjoint. -/
theorem single_jobs_share_containers_cex :
    singleJobContainers (strCodes ("single_20250101_120000")) =
      singleJobContainers (strCodes ("single_20250102_130000")) ∧
    strCodes ("source") ∈
      singleJobContainers (strCodes ("single_20250101_120000")) ∧
    strCodes ("single_20250101_120000") ≠
      strCodes ("single_20250102_130000") := by
  refine ⟨rfl, by decide, by decide⟩

theorem jobIdOk_parts {j : PyStr} (hj : jobIdOk j = true) :
    j.all tameChar = true ∧ noTwoDashy j = true ∧ headAlnum j = true ∧
      lastAlnum j = true ∧ j.length ≤ 50 ∧ ∀ a ∈ j, ¬(a = 45) := by
  simp only [jobIdOk, Bool.and_eq_true, decide_eq_true_eq] at hj
  obtain ⟨⟨⟨⟨hc, hsep⟩, hh⟩, hl⟩, hlen⟩ := hj
  refine ⟨?_, hsep, hh, hl, hlen, ?_⟩
  · simp only [List.all_eq_true] at hc ⊢
    intro a ha
    have := hc a ha
    simp [tameChar] at this ⊢
    tauto
  · intro a ha h45
    simp only [List.all_eq_true] at hc
    have := hc a ha
    subst h45
    simp [isAlnumLower, isLowerCode, isDigitCode] at this

theorem noTwoDashy_append :
    ∀ {t r : PyStr}, noTwoDashy t = true → noTwoDashy r = true →
      (∀ a b, t.getLast? = some a → r.head? = some b →
        (dashy a && dashy b) = false) →
      noTwoDashy (t ++ r) = true
  | [], r, _, hr, _ => hr
  | [a], r, _, hr, hb => by
    match r, hr, hb with
    | [], _, _ => rfl
    | c :: rr, hr, hb =>
      simp only [List.singleton_append, noTwoDashy, Bool.and_eq_true]
      have := hb a c rfl rfl
      refine ⟨?_, hr⟩
      simp [this]
  | a :: b :: tt, r, ht, hr, hb => by
    simp only [noTwoDashy, Bool.and_eq_true] at ht
    have ih := noTwoDashy_append (t := b :: tt) ht.2 hr
      (fun x y hx hy => hb x y (by simpa using hx) hy)
    simp only [List.cons_append, noTwoDashy, Bool.and_eq_true] at ih ⊢
    exact ⟨ht.1, ih⟩

theorem noTwoDashy_of_all_alnum :
    ∀ {l : PyStr}, l.all isAlnumLower = true → noTwoDashy l = true
  | [], _ => rfl
  | [_], _ => rfl
  | a :: b :: rest, h => by
    simp only [List.all_cons, Bool.and_eq_true] at h
    have ih := noTwoDashy_of_all_alnum (l := b :: rest)
      (by simp [List.all_cons, h.2.1, h.2.2])
    simp only [noTwoDashy, Bool.and_eq_true]
    refine ⟨?_, ih⟩
    have ha := h.1
    simp [dashy, isAlnumLower, isLowerCode, isDigitCode] at ha ⊢
    omega

/-- Assembling a tame string from a tame chunk ending in a hyphen and a
tame chunk with alphanumeric ends. -/
theorem tame_append_gen (pre s : PyStr)
    (hp1 : pre.all tameChar = true) (hp2 : noTwoDashy pre = true)
    (hp3 : headAlnum pre = true) (hp4 : pre.getLast? = some 45)
    (hs1 : s.all tameChar = true) (hs2 : noTwoDashy s = true)
    (hs3 : headAlnum s = true) (hs4 : lastAlnum s = true)
    (hlen3 : 3 ≤ pre.length + s.length)
    (hlen63 : pre.length + s.length ≤ 63) :
    tame (pre ++ s) = true := by
  have hsne : s ≠ [] := by
    intro hnil
    rw [hnil] at hs3
    simp [headAlnum] at hs3
  have hall : (pre ++ s).all tameChar = true := by
    rw [List.all_append]
    simp [hp1, hs1]
  have hsep : noTwoDashy (pre ++ s) = true := by
    refine noTwoDashy_append hp2 hs2 ?_
    intro a b ha hb
    rw [hp4] at ha
    cases ha
    have hba : isAlnumLower b = true := by
      simp only [headAlnum, hb] at hs3
      exact hs3
    simp only [dashy]
    simp [isAlnumLower, isLowerCode, isDigitCode] at hba
    simp
    omega
  have hh : headAlnum (pre ++ s) = true := by
    rw [headAlnum, List.head?_append]
    have hpne : pre ≠ [] := by
      intro hnil
      rw [hnil] at hp4
      simp at hp4
    match hph : pre.head? with
    | none => rw [List.head?_eq_none_iff] at hph; exact absurd hph hpne
    | some c =>
      simp only [headAlnum, hph] at hp3
      simp [hp3]
  have hl : lastAlnum (pre ++ s) = true := by
    rw [lastAlnum, List.getLast?_append]
    match hsl : s.getLast? with
    | none => rw [List.getLast?_eq_none_iff] at hsl; exact absurd hsl hsne
    | some c =>
      simp only [lastAlnum, hsl] at hs4
      simp [hs4]
  simp only [tame, Bool.and_eq_true, decide_eq_true_eq]
  refine ⟨⟨⟨⟨⟨hall, hsep⟩, hh⟩, hl⟩, ?_⟩, ?_⟩ <;>
    simp only [List.length_append] <;> omega

theorem hyphenize_append (s t : PyStr) :
    hyphenize (s ++ t) = hyphenize s ++ hyphenize t := by
  simp [hyphenize]

theorem hyphenize_length (s : PyStr) :
    (hyphenize s).length = s.length := by
  simp [hyphenize]

theorem hyphenize_id_of_alnum {l : PyStr}
    (h : l.all isAlnumLower = true) : hyphenize l = l := by
  rw [hyphenize]
  refine (List.map_congr_left ?_).trans (List.map_id l)
  intro a ha
  simp only [List.all_eq_true] at h
  have := h a ha
  simp [isAlnumLower, isLowerCode, isDigitCode] at this
  simp [hyphChar]
  omega

theorem hyphenize_inj :
    ∀ {s t : PyStr}, (∀ a ∈ s, ¬(a = 45)) → (∀ a ∈ t, ¬(a = 45)) →
      hyphenize s = hyphenize t → s = t
  | [], [], _, _, _ => rfl
  | [], _ :: _, _, _, h => by simp [hyphenize] at h
  | _ :: _, [], _, _, h => by simp [hyphenize] at h
  | a :: s, b :: t, hs, ht, h => by
    simp only [hyphenize, List.map_cons, List.cons.injEq] at h
    have hna := hs a (List.mem_cons_self _ _)
    have hnb := ht b (List.mem_cons_self _ _)
    have hab : a = b := by
      have h1 := h.1
      simp only [hyphChar] at h1
      split at h1 <;> split at h1 <;> simp_all
    have hrest := hyphenize_inj (s := s) (t := t)
      (fun x hx => hs x (List.mem_cons_of_mem _ hx))
      (fun x hx => ht x (List.mem_cons_of_mem _ hx)) h.2
    rw [hab, hrest]

theorem langOk_parts {l : PyStr} (hl : langOk l = true) :
    l.all isAlnumLower = true ∧ l ≠ [] := by
  simp only [langOk, Bool.and_eq_true, decide_eq_true_eq] at hl
  refine ⟨hl.1, ?_⟩
  intro hnil
  rw [hnil] at hl
  simp at hl

theorem batchSourceContainer_eq {j : PyStr} (hj : jobIdOk j = true) :
    batchSourceContainer j = strCodes ("batch-source-") ++ hyphenize j := by
  obtain ⟨hc, hsep, hh, hl, hlen, -⟩ := jobIdOk_parts hj
  have h13 : (strCodes ("batch-source-")).length = 13 := by decide
  have htame : tame (strCodes ("batch-source-") ++ j) = true := by
    refine tame_append_gen _ _ (by decide) (by decide) (by decide)
      (by decide) hc hsep hh hl (by omega) (by omega)
  rw [batchSourceContainer, sanitize_tame htame, hyphenize_append,
    show hyphenize (strCodes ("batch-source-")) =
      strCodes ("batch-source-") from by decide]

theorem batchTargetStem_eq {j : PyStr} (hj : jobIdOk j = true) :
    batchTargetStem j = strCodes ("batch-target-") ++ hyphenize j := by
  obtain ⟨hc, hsep, hh, hl, hlen, -⟩ := jobIdOk_parts hj
  have h13 : (strCodes ("batch-target-")).length = 13 := by decide
  have htame : tame (strCodes ("batch-target-") ++ j) = true := by
    refine tame_append_gen _ _ (by decide) (by decide) (by decide)
      (by decide) hc hsep hh hl (by omega) (by omega)
  rw [batchTargetStem, sanitize_tame htame, hyphenize_append,
    show hyphenize (strCodes ("batch-target-")) =
      strCodes ("batch-target-") from by decide]

theorem batchTargetContainer_eq {j : PyStr} (hj : jobIdOk j = true)
    (l : PyStr) :
    batchTargetContainer j l =
      strCodes ("batch-target-") ++ (hyphenize j ++ 45 :: l) := by
  rw [batchTargetContainer, batchTargetStem_eq hj, List.append_assoc]

theorem hyphenize_dash_cons {l : PyStr} (h : l.all isAlnumLower = true) :
    hyphenize (45 :: l) = 45 :: l := by
  rw [hyphenize, List.map_cons, show hyphChar 45 = 45 from by decide]
  rw [show List.map hyphChar l = hyphenize l from rfl,
    hyphenize_id_of_alnum h]

theorem all_tameChar_of_alnum {l : PyStr}
    (h : l.all isAlnumLower = true) : l.all tameChar = true := by
  simp only [List.all_eq_true] at h ⊢
  intro a ha
  have := h a ha
  simp [tameChar, this]

theorem batchDownloadContainer_eq {j l : PyStr} (hj : jobIdOk j = true)
    (hlok : langOk l = true) (hlen : j.length + l.length ≤ 49) :
    batchDownloadContainer j l =
      strCodes ("batch-target-") ++ (hyphenize j ++ 45 :: l) := by
  obtain ⟨hc, hsep, hh, hla, hjlen, -⟩ := jobIdOk_parts hj
  obtain ⟨hall, hlne⟩ := langOk_parts hlok
  have hjne : j ≠ [] := by
    intro hnil
    rw [hnil] at hh
    simp [headAlnum] at hh
  have hs1 : (j ++ 45 :: l).all tameChar = true := by
    rw [List.all_append]
    simp only [List.all_cons, Bool.and_eq_true]
    exact ⟨hc, by decide, all_tameChar_of_alnum hall⟩
  have hdl : noTwoDashy (45 :: l) = true := by
    match l, hlne, hall with
    | c :: ls, _, hall =>
      simp only [List.all_cons, Bool.and_eq_true] at hall
      simp only [noTwoDashy, Bool.and_eq_true]
      refine ⟨?_, noTwoDashy_of_all_alnum (by
        simp [List.all_cons, hall.1, hall.2])⟩
      have := hall.1
      simp [dashy, isAlnumLower, isLowerCode, isDigitCode] at this ⊢
      omega
  have hs2 : noTwoDashy (j ++ 45 :: l) = true := by
    refine noTwoDashy_append hsep hdl ?_
    intro a b ha hb
    rw [List.head?_cons] at hb
    cases hb
    have hmem : a ∈ j := List.mem_of_getLast?_eq_some ha
    simp only [lastAlnum, ha] at hla
    simp [dashy, isAlnumLower, isLowerCode, isDigitCode] at hla ⊢
    omega
  have hs3 : headAlnum (j ++ 45 :: l) = true := by
    rw [headAlnum, List.head?_append]
    match hph : j.head? with
    | none => rw [List.head?_eq_none_iff] at hph; exact absurd hph hjne
    | some c =>
      simp only [headAlnum, hph] at hh
      simp [hh]
  have hs4 : lastAlnum (j ++ 45 :: l) = true := by
    rw [lastAlnum, List.getLast?_append]
    match l, hlne, hall with
    | c :: ls, _, hall =>
      rw [List.getLast?_cons_cons]
      match hgl : (c :: ls).getLast? with
      | none => simp at hgl
      | some x =>
        have hmem : x ∈ c :: ls := List.mem_of_getLast?_eq_some hgl
        simp only [List.all_eq_true] at hall
        have := hall x hmem
        simp [this]
  have h13 : (strCodes ("batch-target-")).length = 13 := by decide
  have hslen : (j ++ 45 :: l).length = j.length + 1 + l.length := by
    simp only [List.length_append, List.length_cons]
    omega
  have htame : tame (strCodes ("batch-target-") ++ (j ++ 45 :: l)) =
      true := by
    refine tame_append_gen _ _ (by decide) (by decide) (by decide)
      (by decide) hs1 hs2 hs3 hs4 (by omega) (by omega)
  rw [batchDownloadContainer, List.append_assoc, sanitize_tame htame,
    hyphenize_append,
    show hyphenize (strCodes ("batch-target-")) =
      strCodes ("batch-target-") from by decide,
    hyphenize_append, hyphenize_dash_cons hall]

theorem batch_container_shape {j : PyStr} {langs : List PyStr}
    (hj : jobIdOk j = true)
    (hL : ∀ l ∈ langs, langOk l = true ∧ j.length + l.length ≤ 49) :
    ∀ c ∈ batchJobContainers j langs,
      c = strCodes ("batch-source-") ++ hyphenize j ∨
      ∃ l, c = strCodes ("batch-target-") ++ (hyphenize j ++ 45 :: l) := by
  intro c hc
  simp only [batchJobContainers, List.mem_cons, List.mem_append,
    List.mem_map] at hc
  rcases hc with rfl | ⟨l, hl, rfl⟩ | ⟨l, hl, rfl⟩
  · exact Or.inl (batchSourceContainer_eq hj)
  · exact Or.inr ⟨l, batchTargetContainer_eq hj l⟩
  · exact Or.inr ⟨l, batchDownloadContainer_eq hj (hL l hl).1 (hL l hl).2⟩

/-- C5 amended: only batch jobs derive their container names from the
job id; two distinct batch jobs (with well-formed generated ids of the
fixed timestamp shape, hence of equal length) use pairwise disjoint
container names.  Single and OCR jobs instead share the fixed containers
`source`/`target` and `ocr-source`/`ocr-target` across all jobs of their
variant (counterexample above). -/
theorem batch_job_containers_disjoint (j1 j2 : PyStr)
    (langs1 langs2 : List PyStr)
    (hj1 : jobIdOk j1 = true) (hj2 : jobIdOk j2 = true)
    (hlen : j1.length = j2.length) (hne : j1 ≠ j2)
    (hL1 : ∀ l ∈ langs1, langOk l = true ∧ j1.length + l.length ≤ 49)
    (hL2 : ∀ l ∈ langs2, langOk l = true ∧ j2.length + l.length ≤ 49) :
    ∀ c1 ∈ batchJobContainers j1 langs1,
      ∀ c2 ∈ batchJobContainers j2 langs2, c1 ≠ c2 := by
  intro c1 hc1 c2 hc2 heq
  have h45j1 := (jobIdOk_parts hj1).2.2.2.2.2
  have h45j2 := (jobIdOk_parts hj2).2.2.2.2.2
  have hinj : hyphenize j1 = hyphenize j2 → False :=
    fun h => hne (hyphenize_inj h45j1 h45j2 h)
  have hlh : (hyphenize j1).length = (hyphenize j2).length := by
    rw [hyphenize_length, hyphenize_length, hlen]
  rcases batch_container_shape hj1 hL1 c1 hc1 with h1 | ⟨l1, h1⟩ <;>
    rcases batch_container_shape hj2 hL2 c2 hc2 with h2 | ⟨l2, h2⟩ <;>
    rw [h1, h2] at heq
  · exact hinj (List.append_inj_right heq (by decide))
  · exact absurd (List.append_inj heq (by decide)).1 (by decide)
  · exact absurd (List.append_inj heq (by decide)).1 (by decide)
  · exact hinj
      (List.append_inj (List.append_inj_right heq (by decide)) hlh).1

theorem batch_job_containers_disjoint_witness :
    jobIdOk (strCodes ("batch_20250101_120000")) = true ∧
    jobIdOk (strCodes ("batch_20250101_120001")) = true ∧
    strCodes ("batch_20250101_120000") ≠
      strCodes ("batch_20250101_120001") ∧
    (∀ c1 ∈ batchJobContainers (strCodes ("batch_20250101_120000"))
        [strCodes ("es")],
      ∀ c2 ∈ batchJobContainers (strCodes ("batch_20250101_120001"))
        [strCodes ("fr")], c1 ≠ c2) :=
  ⟨by decide, by decide, by decide,
    batch_job_containers_disjoint _ _ _ _ (by decide) (by decide)
      (by decide) (by decide) (by decide) (by decide)⟩

theorem ok_bind {α β : Type} (a : α) (f : α → Except String β) :
    (Except.ok a >>= f) = f a := rfl

theorem lookup_map_pair (langs : List String)
    (f : String → List BatchEntry) (k : String) (hk : k ∈ langs) :
    (langs.map (fun l => (l, f l))).lookup k = some (f k) := by
  induction langs with
  | nil => cases hk
  | cons a t ih =>
    by_cases hka : k = a
    · subst hka
      simp [List.lookup]
    · have hkt : k ∈ t := by
        rcases List.mem_cons.mp hk with h | h
        · exact absurd h hka
        · exact h
      simp only [List.map_cons, List.lookup]
      rw [show (k == a) = false from by simp [hka]]
      exact ih hkt

theorem appendAt_map (langs : List String)
    (f : String → List BatchEntry) (k : String) (v : BatchEntry)
    (hk : k ∈ langs) :
    appendAt (langs.map (fun l => (l, f l))) k v =
      .ok (langs.map (fun l => (l, if l = k then f l ++ [v] else f l))) := by
  rw [appendAt, if_pos (by rw [lookup_map_pair langs f k hk]; simp)]
  congr 1
  rw [List.map_map]
  refine List.map_congr_left ?_
  intro l _
  by_cases hlk : l = k
  · simp [Function.comp, hlk]
  · simp [Function.comp, hlk]

theorem collect_go :
    ∀ (docs : List DocOutcome) (langs : List String)
      (f : String → List BatchEntry) (det : List (String × String))
      (sc fc : Nat),
      (∀ d ∈ docs, d.status = ("Succeeded") → d.translated_to ∈ langs) →
      ∃ acc, docs.foldlM collectStep
          { results_by_language := langs.map (fun l => (l, f l)),
            detected_source_languages := det, success_count := sc,
            failure_count := fc } = .ok acc ∧
        acc.results_by_language =
          langs.map (fun l => (l, f l ++ successEntries docs l))
  | [], langs, f, det, sc, fc, _ => by
    refine ⟨_, rfl, ?_⟩
    simp [successEntries]
  | d :: docs, langs, f, det, sc, fc, hcov => by
    rw [List.foldlM_cons]
    cases hst : (d.status == ("Succeeded")) with
    | true =>
      have hmem : d.translated_to ∈ langs :=
        hcov d (List.mem_cons_self _ _) (by simpa using hst)
      have hstep : collectStep
          { results_by_language := langs.map (fun l => (l, f l)),
            detected_source_languages := det, success_count := sc,
            failure_count := fc } d =
          .ok { results_by_language := langs.map (fun l =>
                  (l, if l = d.translated_to
                    then f l ++ [⟨d.source_file, d.translated_url,
                      ("success"), ("auto-detected")⟩]
                    else f l)),
                detected_source_languages :=
                  setIfAbsent det d.source_file ("auto-detected"),
                success_count := sc + 1, failure_count := fc } := by
        rw [collectStep, if_pos hst]
        rw [appendAt_map langs f d.translated_to _ hmem]
      rw [hstep, ok_bind]
      obtain ⟨acc, hfold, hres⟩ := collect_go docs langs
        (fun l => if l = d.translated_to
          then f l ++ [⟨d.source_file, d.translated_url, ("success"),
            ("auto-detected")⟩]
          else f l)
        (setIfAbsent det d.source_file ("auto-detected")) (sc + 1) fc
        (fun x hx hs => hcov x (List.mem_cons_of_mem _ hx) hs)
      refine ⟨acc, hfold, ?_⟩
      rw [hres]
      refine List.map_congr_left ?_
      intro l _
      simp only [Prod.mk.injEq, true_and]
      by_cases hlk : l = d.translated_to
      · subst hlk
        rw [if_pos rfl]
        rw [successEntries, successEntries, List.filter_cons,
          if_pos (by simp [hst]), List.map_cons, List.append_assoc,
          List.singleton_append]
      · rw [if_neg hlk]
        rw [successEntries, successEntries, List.filter_cons,
          if_neg (by simp [hst]; intro h; exact absurd h.symm hlk)]
    | false =>
      have hse : ∀ l, successEntries (d :: docs) l = successEntries docs l :=
        by
        intro l
        rw [successEntries, successEntries, List.filter_cons,
          if_neg (by simp [hst])]
      obtain ⟨acc, hfold, hres⟩ := collect_go docs langs f det sc
        (if d.status == ("Failed") then fc + 1 else fc)
        (fun x hx hs => hcov x (List.mem_cons_of_mem _ hx) hs)
      cases hfl : (d.status == ("Failed")) with
      | true =>
        have hstep : collectStep
            { results_by_language := langs.map (fun l => (l, f l)),
              detected_source_languages := det, success_count := sc,
              failure_count := fc } d =
            .ok { results_by_language := langs.map (fun l => (l, f l)),
                  detected_source_languages := det, success_count := sc,
                  failure_count := fc + 1 } := by
          rw [collectStep, if_neg (by simp [hst]), if_pos hfl]
        rw [hstep, ok_bind]
        rw [hfl] at hfold
        refine ⟨acc, hfold, ?_⟩
        rw [hres]
        exact List.map_congr_left (fun l _ => by rw [hse l])
      | false =>
        have hstep : collectStep
            { results_by_language := langs.map (fun l => (l, f l)),
              detected_source_languages := det, success_count := sc,
              failure_count := fc } d =
            .ok { results_by_language := langs.map (fun l => (l, f l)),
                  detected_source_languages := det, success_count := sc,
                  failure_count := fc } := by
          rw [collectStep, if_neg (by simp [hst]), if_neg (by simp [hfl])]
        rw [hstep, ok_bind]
        rw [hfl] at hfold
        refine ⟨acc, hfold, ?_⟩
        rw [hres]
        exact List.map_congr_left (fun l _ => by rw [hse l])

theorem successEntries_filter (docs : List DocOutcome) (l : String) :
    successEntries (docs.filter (fun d => d.status == ("Succeeded"))) l =
      successEntries docs l := by
  rw [successEntries, successEntries, List.filter_filter]
  congr 1
  refine List.filter_congr ?_
  intro d _
  cases hd : (d.status == ("Succeeded")) <;> simp [hd]

/-- C8: a batch job in which some documents fail and at least one
succeeds still runs to completion: the collection loop raises nothing and
yields, for every requested language, exactly the successfully translated
documents (failed documents are omitted, and — by the second conjunct —
removing the failed documents changes no language's list); the runner then
finishes the record with `status=completed` at progress 100. -/
theorem batch_partial_failure_completes (langs : List String)
    (docs : List DocOutcome) (payload : List (String × String))
    (job_id started now : String)
    (hcov : ∀ d ∈ docs, d.status = ("Succeeded") → d.translated_to ∈ langs)
    (_hfail : ∃ d ∈ docs, d.status = ("Failed"))
    (_hsucc : ∃ d ∈ docs, d.status = ("Succeeded")) :
    (∃ acc, collectResults langs docs = .ok acc ∧
      ∀ l ∈ langs, acc.results_by_language.lookup l =
        some (successEntries docs l)) ∧
    (∀ l, successEntries
        (docs.filter (fun d => d.status == ("Succeeded"))) l =
      successEntries docs l) ∧
    (finalRecord (JobRecord.init job_id ("batch") started)
        (runBatchCalls langs.length (.success payload)) now).status =
      ("completed") ∧
    (finalRecord (JobRecord.init job_id ("batch") started)
        (runBatchCalls langs.length (.success payload)) now).progress =
      100 := by
  refine ⟨?_, successEntries_filter docs, rfl, rfl⟩
  obtain ⟨acc, hfold, hres⟩ :=
    collect_go docs langs (fun _ => []) [] 0 0 hcov
  refine ⟨acc, hfold, ?_⟩
  intro l hl
  rw [hres, lookup_map_pair langs _ l hl]
  simp

theorem batch_partial_failure_completes_witness :
    (∀ d ∈ sampleBatchDocs, d.status = ("Succeeded") →
      d.translated_to ∈ [("es"), ("fr")]) ∧
    (∃ d ∈ sampleBatchDocs, d.status = ("Failed")) ∧
    (∃ d ∈ sampleBatchDocs, d.status = ("Succeeded")) ∧
    ((∃ acc, collectResults [("es"), ("fr")] sampleBatchDocs = .ok acc ∧
      ∀ l ∈ [("es"), ("fr")], acc.results_by_language.lookup l =
        some (successEntries sampleBatchDocs l)) ∧
    (∀ l, successEntries
        (sampleBatchDocs.filter (fun d => d.status == ("Succeeded"))) l =
      successEntries sampleBatchDocs l) ∧
    (finalRecord
        (JobRecord.init ("batch_20250101_120000") ("batch") ("t0"))
        (runBatchCalls ([("es"), ("fr")] : List String).length
          (.success [(("output_folder"), ("batch_20250101_120000"))]))
        ("t1")).status = ("completed") ∧
    (finalRecord
        (JobRecord.init ("batch_20250101_120000") ("batch") ("t0"))
        (runBatchCalls ([("es"), ("fr")] : List String).length
          (.success [(("output_folder"), ("batch_20250101_120000"))]))
        ("t1")).progress = 100) :=
  ⟨by decide, by decide, by decide,
    batch_partial_failure_completes [("es"), ("fr")] sampleBatchDocs
      [(("output_folder"), ("batch_20250101_120000"))]
      ("batch_20250101_120000") ("t0") ("t1") (by decide) (by decide)
      (by decide)⟩

end TranslateApp
